import Mathlib

/-!
Verification of the StitchHub back-office server (NestJS + Prisma) against its
natural-language specification.

The relational state (Prisma/SQL database) is embedded shallowly: each table is
a list of rows plus an autoincrement counter, and each service method of the
TypeScript sources becomes a Lean function from a database state to a result
together with the state that persists after the call.  Fallible operations
return `Except ServiceError`; the persisted state is returned in every case, so
that a failed transaction can be distinguished from a failed plain query.

Dates are represented by the value `normalizeDate` produces in the source: the
services normalize every incoming date string to start-of-day UTC before it is
stored or compared, so a date is modelled as the resulting day number (`Nat`).
Monetary amounts (`pricePerUnit`, `totalAmount`, salaries) are `REAL` columns
written by plain multiplication in the source and are modelled as `Rat`.
-/

namespace StitchHub

/-- The two user roles (Prisma enum `Role`). -/
inductive Role where
  | OWNER
  | WORKER
deriving DecidableEq, Repr

/-- Attendance status (enum `AttendanceStatus` in `attendance.dto.ts`). -/
inductive AttendanceStatus where
  | PRESENT
  | ABSENT
  | HALF_DAY
  | LEAVE
deriving DecidableEq, Repr

/-- Errors surfaced by the services: the Nest HTTP exceptions thrown in the
TypeScript code, plus the Prisma constraint errors that the global
`PrismaExceptionFilter` translates (`P2002` unique violation, `P2003` foreign
key violation). -/
inductive ServiceError where
  | notFound
  | conflict
  | badRequest
  | forbidden
  | uniqueViolation
  | fkViolation
deriving DecidableEq, Repr

instance {ε α : Type} [DecidableEq ε] [DecidableEq α] : DecidableEq (Except ε α) :=
  fun x y =>
    match x, y with
    | .ok a, .ok b =>
      if h : a = b then isTrue (by rw [h])
      else isFalse (by intro hc; injection hc; contradiction)
    | .error a, .error b =>
      if h : a = b then isTrue (by rw [h])
      else isFalse (by intro hc; injection hc; contradiction)
    | .ok _, .error _ => isFalse (fun hc => Except.noConfusion hc)
    | .error _, .ok _ => isFalse (fun hc => Except.noConfusion hc)

/-- A row of the `User` table: id, email (unique), bcrypt password hash, name,
role, optional monthly salary, creation timestamp. -/
structure UserRow where
  id : Nat
  email : String
  password : String
  name : String
  role : Role
  monthlySalary : Option Rat
  createdAt : Nat
deriving DecidableEq, Repr

/-- A row of the `WorkDescription` table: deduplicated free text (unique index
`WorkDescription_text_key`) plus the optional default price per unit that the
exports module reads and writes. -/
structure WorkDescriptionRow where
  id : Nat
  text : String
  pricePerUnit : Option Rat
deriving DecidableEq, Repr

/-- A row of the `Work` table. -/
structure WorkRow where
  id : Nat
  date : Nat
  quantity : Int
  pricePerUnit : Rat
  totalAmount : Rat
  descriptionId : Nat
  userId : Nat
deriving DecidableEq, Repr

/-- A row of the `Attendance` table.  `workId` is the optional back reference
to the Work row that auto-created this attendance (unique index
`Attendance_workId_key`). -/
structure AttendanceRow where
  id : Nat
  date : Nat
  status : AttendanceStatus
  workId : Option Nat
  userId : Nat
deriving DecidableEq, Repr

/-- A row of the `Company` table (name unique, per
`ExportsService.getOrCreateCompany` using `findUnique` on name). -/
structure CompanyRow where
  id : Nat
  name : String
deriving DecidableEq, Repr

/-- A row of the `Export` table. -/
structure ExportRow where
  id : Nat
  date : Nat
  companyId : Nat
  quantity : Int
  pricePerUnit : Rat
  totalAmount : Rat
  descriptionId : Nat
deriving DecidableEq, Repr

/-- The database state: one list per table plus autoincrement counters. -/
structure DB where
  users : List UserRow
  works : List WorkRow
  attendances : List AttendanceRow
  descriptions : List WorkDescriptionRow
  companies : List CompanyRow
  exports : List ExportRow
  nextUserId : Nat
  nextWorkId : Nat
  nextAttendanceId : Nat
  nextDescriptionId : Nat
  nextCompanyId : Nat
  nextExportId : Nat
deriving DecidableEq, Repr

/-- The empty database. -/
def DB.empty : DB :=
  ⟨[], [], [], [], [], [], 1, 1, 1, 1, 1, 1⟩

/-! ## Query primitives (Prisma `findUnique` / `findMany` translations) -/

/-- `prisma.user.findUnique (where id)`. -/
def findUserById (db : DB) (id : Nat) : Option UserRow :=
  db.users.find? (fun u => u.id == id)

/-- `prisma.user.findUnique (where email)` (unique index `User_email_key`). -/
def findUserByEmail (db : DB) (email : String) : Option UserRow :=
  db.users.find? (fun u => u.email == email)

/-- `prisma.work.findUnique (where id)`. -/
def findWorkById (db : DB) (id : Nat) : Option WorkRow :=
  db.works.find? (fun w => w.id == id)

/-- `prisma.attendance.findUnique (where date_userId)` (unique index
`Attendance_date_userId_key`). -/
def findAttendanceByDateUser (db : DB) (date userId : Nat) : Option AttendanceRow :=
  db.attendances.find? (fun a => a.date == date && a.userId == userId)

/-- The `attendance` relation included when a Work row is fetched: the unique
Attendance row whose `workId` equals the id of the work (unique index
`Attendance_workId_key`). -/
def findAttendanceByWorkId (db : DB) (workId : Nat) : Option AttendanceRow :=
  db.attendances.find? (fun a => a.workId == some workId)

/-- `prisma.workDescription.findUnique (where text)` (unique index
`WorkDescription_text_key`). -/
def findDescriptionByText (db : DB) (text : String) : Option WorkDescriptionRow :=
  db.descriptions.find? (fun d => d.text == text)

/-- `prisma.workDescription.findUnique (where id)`. -/
def findDescriptionById (db : DB) (id : Nat) : Option WorkDescriptionRow :=
  db.descriptions.find? (fun d => d.id == id)

/-- `prisma.company.findUnique (where name)`. -/
def findCompanyByName (db : DB) (name : String) : Option CompanyRow :=
  db.companies.find? (fun c => c.name == name)

/-! ## JavaScript truthiness

The services test optional DTO fields with plain `if (x)`, so `undefined`, the
empty string and the number `0` all count as absent. -/

/-- Truthiness of an optional number field (`0` and `undefined` are falsy). -/
def truthyNat : Option Nat → Bool
  | none => false
  | some n => n != 0

/-- Truthiness of an optional string field (empty string and `undefined` are
falsy). -/
def truthyStr : Option String → Bool
  | none => false
  | some s => s != ""

/-- Truthiness of a rational number field (`0` is falsy). -/
def truthyRat (q : Rat) : Bool :=
  q != 0

/-! ## Write primitives

Each write primitive is the translation of one Prisma mutation call together
with the constraints of the schema that the database enforces on it: the
unique indexes and foreign keys listed in `prisma/migrations`, and the foreign
keyed relational shape the specification states for the data model.

The `schema.prisma` file itself is not among the sources; the migrations are
stale relative to it (they lack the `Export`, `Company` and `SalaryPayment`
tables and the `monthlySalary` and `WorkDescription.pricePerUnit` columns that
the services use).  Where the migrations and the specification disagree about
the current schema, the write primitive carries a doc comment saying which
reading it follows. -/

/-- `work.create`.  Enforces the foreign keys `Work_userId_fkey` and
`Work_descriptionId_fkey`.

Modelled from the spec: the current database schema (`schema.prisma`, absent
from the sources and newer than the checked-in migrations) has no unique index
on `Work (date, userId)` — per the specification, "unique on date+user in the
legacy schema, though the current schema allows multiple work rows per user
per day" — so no uniqueness check is performed here even though the stale
`20251230162642_init` migration still carries `Work_date_userId_key`. -/
def workCreate (db : DB) (date : Nat) (quantity : Int) (pricePerUnit totalAmount : Rat)
    (descriptionId userId : Nat) : Except ServiceError (WorkRow × DB) :=
  if (findUserById db userId).isNone then .error .fkViolation
  else if (findDescriptionById db descriptionId).isNone then .error .fkViolation
  else
    let w : WorkRow := ⟨db.nextWorkId, date, quantity, pricePerUnit, totalAmount, descriptionId, userId⟩
    .ok (w, { db with works := db.works ++ [w], nextWorkId := db.nextWorkId + 1 })

/-- `work.update (where id)` replacing the stored row by `updated`.  Fails with
`P2025` when the id does not exist. -/
def workUpdateRow (db : DB) (id : Nat) (updated : WorkRow) : Except ServiceError DB :=
  if db.works.any (fun w => w.id == id) then
    .ok { db with works := db.works.map (fun w => if w.id == id then updated else w) }
  else .error .notFound

/-- `work.delete (where id)`.  The foreign key `Attendance_workId_fkey` is
declared `ON DELETE SET NULL`, so any attendance still pointing at the deleted
work has its `workId` cleared by the database. -/
def workDelete (db : DB) (id : Nat) : Except ServiceError DB :=
  if db.works.any (fun w => w.id == id) then
    .ok { db with
      works := db.works.filter (fun w => !(w.id == id)),
      attendances := db.attendances.map
        (fun a => if a.workId == some id then { a with workId := none } else a) }
  else .error .notFound

/-- `attendance.create`.  Enforces `Attendance_userId_fkey`, the unique index
`Attendance_date_userId_key`, the unique index `Attendance_workId_key` and the
foreign key `Attendance_workId_fkey`. -/
def attendanceCreate (db : DB) (date userId : Nat) (workId : Option Nat)
    (status : AttendanceStatus) : Except ServiceError (AttendanceRow × DB) :=
  if (findUserById db userId).isNone then .error .fkViolation
  else if (findAttendanceByDateUser db date userId).isSome then .error .uniqueViolation
  else if workId.isSome && db.attendances.any (fun a => a.workId == workId) then
    .error .uniqueViolation
  else if workId.isSome && (db.works.find? (fun w => some w.id == workId)).isNone then
    .error .fkViolation
  else
    let a : AttendanceRow := ⟨db.nextAttendanceId, date, status, workId, userId⟩
    .ok (a, { db with attendances := db.attendances ++ [a],
                      nextAttendanceId := db.nextAttendanceId + 1 })

/-- `attendance.update (where id) (data status)`. -/
def attendanceSetStatus (db : DB) (id : Nat) (status : AttendanceStatus) :
    Except ServiceError DB :=
  if db.attendances.any (fun a => a.id == id) then
    .ok { db with attendances :=
      db.attendances.map (fun a => if a.id == id then { a with status := status } else a) }
  else .error .notFound

/-- `attendance.update (where id) (data workId null, status ABSENT)` — the
revert step of `deleteWork`. -/
def attendanceRevert (db : DB) (id : Nat) : Except ServiceError DB :=
  if db.attendances.any (fun a => a.id == id) then
    .ok { db with attendances :=
      db.attendances.map (fun a => if a.id == id then { a with workId := none, status := .ABSENT } else a) }
  else .error .notFound

/-! ## Work service (`work.service.ts`) -/

/-- `WorkService.getOrCreateDescription`: return the existing WorkDescription
row for the text, or create one. -/
def getOrCreateDescription (db : DB) (text : String) : WorkDescriptionRow × DB :=
  match findDescriptionByText db text with
  | some existing => (existing, db)
  | none =>
    let d : WorkDescriptionRow := ⟨db.nextDescriptionId, text, none⟩
    (d, { db with descriptions := db.descriptions ++ [d],
                  nextDescriptionId := db.nextDescriptionId + 1 })

/-- The description-resolution prologue shared by `createWork` and
`updateWork`: start from the DTO `descriptionId`; when it is falsy and a
truthy description text is present, look the text up or create it and use the
resulting id. -/
def resolveDescription (db : DB) (descriptionId : Option Nat)
    (description : Option String) : Option Nat × DB :=
  if !(truthyNat descriptionId) && truthyStr description then
    match description with
    | some t =>
      let p := getOrCreateDescription db t
      (some p.1.id, p.2)
    | none => (descriptionId, db)
  else (descriptionId, db)

/-- `CreateWorkDto` (`create-work.dto.ts`); the date is stored normalized. -/
structure CreateWorkDto where
  date : Nat
  quantity : Int
  pricePerUnit : Rat
  description : Option String
  descriptionId : Option Nat
  userId : Option Nat
deriving DecidableEq, Repr

/-- The `$transaction` body of `createWork`: create the work row, then create
the attendance row for the day as PRESENT, or mark the existing one PRESENT. -/
def txCreateWorkBody (db : DB) (userId : Nat) (dto : CreateWorkDto)
    (descId : Nat) (totalAmount : Rat) : Except ServiceError (WorkRow × DB) :=
  match workCreate db dto.date dto.quantity dto.pricePerUnit totalAmount descId userId with
  | .error e => .error e
  | .ok (work, dbw) =>
    match findAttendanceByDateUser dbw dto.date userId with
    | some existing =>
      match attendanceSetStatus dbw existing.id .PRESENT with
      | .error e => .error e
      | .ok dbs => .ok (work, dbs)
    | none =>
      match attendanceCreate dbw dto.date userId (some work.id) .PRESENT with
      | .error e => .error e
      | .ok (_, dba) => .ok (work, dba)

/-- `WorkService.createWork`: resolve the description (outside the
transaction, so a created WorkDescription row is already committed), compute
`totalAmount = quantity * pricePerUnit`, then run the work insert and the
attendance sync inside one transaction; if the transaction fails, the state
rolls back to what it was when the transaction began. -/
def createWork (db0 : DB) (userId : Nat) (dto : CreateWorkDto) :
    Except ServiceError WorkRow × DB :=
  match resolveDescription db0 dto.descriptionId dto.description with
  | (none, db1) => (.error .badRequest, db1)
  | (some descId, db1) =>
    if descId != 0 then
      match txCreateWorkBody db1 userId dto descId ((dto.quantity : Rat) * dto.pricePerUnit) with
      | .ok (w, db2) => (.ok w, db2)
      | .error e => (.error e, db1)
    else (.error .badRequest, db1)

/-- `WorkService.getWorkById`: fetch, 404 when absent, and deny a WORKER
access to a record of another user.  The optional caller id and role mirror
the optional parameters of the method. -/
def getWorkById (db : DB) (id : Nat) (userId : Option Nat) (role : Option Role) :
    Except ServiceError WorkRow :=
  match findWorkById db id with
  | none => .error .notFound
  | some work =>
    if role == some .WORKER && some work.userId != userId then .error .forbidden
    else .ok work

/-- `UpdateWorkDto` (`update-work.dto.ts`): all fields optional. -/
structure UpdateWorkDto where
  quantity : Option Int
  pricePerUnit : Option Rat
  description : Option String
  descriptionId : Option Nat
deriving DecidableEq, Repr

/-- `WorkService.updateWork`: 404 when absent, WORKER may only touch own
rows, the description may be replaced, and `totalAmount` is recomputed from
the DTO fields merged over the stored row. -/
def updateWork (db0 : DB) (id : Nat) (dto : UpdateWorkDto) (userId : Nat)
    (role : Role) : Except ServiceError WorkRow × DB :=
  match findWorkById db0 id with
  | none => (.error .notFound, db0)
  | some work =>
    if role == .WORKER && work.userId != userId then (.error .forbidden, db0)
    else
      match resolveDescription db0 dto.descriptionId dto.description with
      | (resolvedId, db1) =>
        let quantity := dto.quantity.getD work.quantity
        let pricePerUnit := dto.pricePerUnit.getD work.pricePerUnit
        let updated : WorkRow := { work with
          quantity := quantity,
          pricePerUnit := pricePerUnit,
          totalAmount := (quantity : Rat) * pricePerUnit,
          descriptionId :=
            if truthyNat resolvedId then resolvedId.getD work.descriptionId
            else work.descriptionId }
        if (findDescriptionById db1 updated.descriptionId).isNone then (.error .fkViolation, db1)
        else
          match workUpdateRow db1 id updated with
          | .ok db2 => (.ok updated, db2)
          | .error e => (.error e, db1)

/-- The `$transaction` body of `deleteWork`: clear and revert the linked
attendance when there is one, then delete the work row. -/
def txDeleteWorkBody (db : DB) (work : WorkRow) (att : Option AttendanceRow) :
    Except ServiceError (WorkRow × DB) :=
  match (match att with
         | some a => attendanceRevert db a.id
         | none => .ok db) with
  | .error e => .error e
  | .ok dbr =>
    match workDelete dbr work.id with
    | .error e => .error e
    | .ok dbd => .ok (work, dbd)

/-- `WorkService.deleteWork`: fetch the work together with its linked
attendance (the row whose `workId` points at it), 404 when absent, WORKER may
only delete own rows, then inside one transaction revert the linked attendance
to ABSENT with `workId` cleared and delete the work. -/
def deleteWork (db : DB) (id : Nat) (userId : Nat) (role : Role) :
    Except ServiceError WorkRow × DB :=
  match findWorkById db id with
  | none => (.error .notFound, db)
  | some work =>
    if role == .WORKER && work.userId != userId then (.error .forbidden, db)
    else
      match txDeleteWorkBody db work (findAttendanceByWorkId db id) with
      | .ok (w, db2) => (.ok w, db2)
      | .error e => (.error e, db)

/-! ## Attendance service (`AttendanceService`) -/

/-- `CreateAttendanceDto`. -/
structure CreateAttendanceDto where
  date : Nat
  userId : Nat
  status : AttendanceStatus
deriving DecidableEq, Repr

/-- `UpdateAttendanceDto`. -/
structure UpdateAttendanceDto where
  userId : Nat
  status : AttendanceStatus
deriving DecidableEq, Repr

/-- `AttendanceService.createAttendance` (manual creation): 404 when the user
does not exist, 409 Conflict when an attendance row for the user and date
already exists, otherwise insert a row with no work link. -/
def createAttendance (db : DB) (dto : CreateAttendanceDto) :
    Except ServiceError AttendanceRow × DB :=
  match findUserById db dto.userId with
  | none => (.error .notFound, db)
  | some _ =>
    match findAttendanceByDateUser db dto.date dto.userId with
    | some _ => (.error .conflict, db)
    | none =>
      match attendanceCreate db dto.date dto.userId none dto.status with
      | .ok (a, db2) => (.ok a, db2)
      | .error e => (.error e, db)

/-- `AttendanceService.updateAttendanceStatus`: 404 when the user does not
exist; update the status of the existing row for the date, or create a new
row. -/
def updateAttendanceStatus (db : DB) (date : Nat) (dto : UpdateAttendanceDto) :
    Except ServiceError AttendanceRow × DB :=
  match findUserById db dto.userId with
  | none => (.error .notFound, db)
  | some _ =>
    match findAttendanceByDateUser db date dto.userId with
    | some existing =>
      match attendanceSetStatus db existing.id dto.status with
      | .ok db2 => (.ok { existing with status := dto.status }, db2)
      | .error e => (.error e, db)
    | none =>
      match attendanceCreate db date dto.userId none dto.status with
      | .ok (a, db2) => (.ok a, db2)
      | .error e => (.error e, db)

/-! ## Users service and controller (`users.service.ts`, `users.controller.ts`) -/

/-- Stand-in for the external bcrypt library (`bcrypt.hash(password, 10)`).
The claims under verification never inspect hash values, only where the stored
password may flow. -/
def bcryptHash (password : String) : String :=
  "$2b$10$" ++ password

/-- `UserResponseDto`: the shape every user-read endpoint returns.  It carries
no password field; the services additionally `select` exactly these columns. -/
structure UserResponse where
  id : Nat
  email : String
  name : String
  role : Role
  createdAt : Nat
deriving DecidableEq, Repr

/-- The `select (id, email, name, role, createdAt)` projection applied by
`findAll`, `findById`, `create` and `update`. -/
def userToResponse (u : UserRow) : UserResponse :=
  ⟨u.id, u.email, u.name, u.role, u.createdAt⟩

/-- `UsersService.findAll`: all users, newest first, projected to
`UserResponseDto`. -/
def usersFindAll (db : DB) : List UserResponse :=
  (db.users.map userToResponse).mergeSort (fun a b => Nat.ble b.createdAt a.createdAt)

/-- `UsersService.findById`: 404 when absent, otherwise the projection. -/
def usersFindById (db : DB) (id : Nat) : Except ServiceError UserResponse :=
  match findUserById db id with
  | none => .error .notFound
  | some u => .ok (userToResponse u)

/-- `GET /api/users/:id` in `UsersController`: an OWNER may view any user,
anyone else only themselves; then delegate to `UsersService.findById`. -/
def usersFindByIdEndpoint (db : DB) (callerRole : Role) (callerSub : Nat)
    (id : Nat) : Except ServiceError UserResponse :=
  if callerRole != .OWNER && callerSub != id then .error .forbidden
  else usersFindById db id

/-- `CreateUserDto`. -/
structure CreateUserDto where
  email : String
  name : String
  password : String
  role : Role
  monthlySalary : Option Rat
deriving DecidableEq, Repr

/-- `UpdateUserDto`: all fields optional. -/
structure UpdateUserDto where
  email : Option String
  name : Option String
  role : Option Role
  monthlySalary : Option Rat
deriving DecidableEq, Repr

/-- `dto.monthlySalary || null`: JavaScript `||` maps both `undefined` and `0`
to null. -/
def jsOrNullRat : Option Rat → Option Rat
  | none => none
  | some q => if q == 0 then none else some q

/-- `UsersService.create`: 409 Conflict when a user with the email already
exists, otherwise hash the password and insert the user (`createdAt` is the
database timestamp, passed in as `now`). -/
def usersCreate (db : DB) (dto : CreateUserDto) (now : Nat) :
    Except ServiceError UserResponse × DB :=
  match findUserByEmail db dto.email with
  | some _ => (.error .conflict, db)
  | none =>
    let u : UserRow := ⟨db.nextUserId, dto.email, bcryptHash dto.password, dto.name,
                        dto.role, jsOrNullRat dto.monthlySalary, now⟩
    (.ok (userToResponse u),
     { db with users := db.users ++ [u], nextUserId := db.nextUserId + 1 })

/-- `UsersService.update`: 404 when absent; when the DTO carries a truthy
email different from the current one and another user already holds it, 409
Conflict; otherwise merge the provided fields over the stored row (the unique
index `User_email_key` still guards the final write). -/
def usersUpdate (db : DB) (id : Nat) (dto : UpdateUserDto) :
    Except ServiceError UserResponse × DB :=
  match findUserById db id with
  | none => (.error .notFound, db)
  | some user =>
    let emailConflict :=
      match dto.email with
      | some e => e != "" && e != user.email && (findUserByEmail db e).isSome
      | none => false
    if emailConflict then (.error .conflict, db)
    else
      let updated : UserRow := { user with
        email := dto.email.getD user.email,
        name := dto.name.getD user.name,
        role := dto.role.getD user.role,
        monthlySalary := match dto.monthlySalary with
          | some m => some m
          | none => user.monthlySalary }
      if db.users.any (fun u => !(u.id == id) && u.email == updated.email) then
        (.error .uniqueViolation, db)
      else
        (.ok (userToResponse updated),
         { db with users := db.users.map (fun u => if u.id == id then updated else u) })

/-! ## Exports service (`ExportsService`) -/

/-- `ExportsService.getOrCreateCompany`. -/
def getOrCreateCompany (db : DB) (name : String) : CompanyRow × DB :=
  match findCompanyByName db name with
  | some existing => (existing, db)
  | none =>
    let c : CompanyRow := ⟨db.nextCompanyId, name⟩
    (c, { db with companies := db.companies ++ [c],
                  nextCompanyId := db.nextCompanyId + 1 })

/-- `ExportsService.getOrCreateDescription`: when a truthy `descriptionId`
refers to an existing row, return it; otherwise when a truthy text is given,
return the id of the existing row for that text or create one; otherwise 400
Bad Request. -/
def exportsGetOrCreateDescription (db : DB) (text : Option String)
    (descriptionId : Option Nat) : Except ServiceError Nat × DB :=
  let byId : Option Nat :=
    if truthyNat descriptionId then
      match descriptionId with
      | some d => if (findDescriptionById db d).isSome then some d else none
      | none => none
    else none
  match byId with
  | some d => (.ok d, db)
  | none =>
    if truthyStr text then
      match text with
      | some t =>
        match findDescriptionByText db t with
        | some existing => (.ok existing.id, db)
        | none =>
          let d : WorkDescriptionRow := ⟨db.nextDescriptionId, t, none⟩
          (.ok d.id, { db with descriptions := db.descriptions ++ [d],
                               nextDescriptionId := db.nextDescriptionId + 1 })
      | none => (.error .badRequest, db)
    else (.error .badRequest, db)

/-- `CreateExportDto`. -/
structure CreateExportDto where
  date : Nat
  companyName : String
  quantity : Int
  pricePerUnit : Rat
  descriptionId : Option Nat
  description : Option String
  updateDescriptionPrice : Option Bool
deriving DecidableEq, Repr

/-- `ExportsService.createExport`: resolve the description, optionally push
the price onto the WorkDescription row, resolve the company, compute
`totalAmount = quantity * pricePerUnit` and insert the export row. -/
def createExport (db0 : DB) (dto : CreateExportDto) :
    Except ServiceError ExportRow × DB :=
  match exportsGetOrCreateDescription db0 dto.description dto.descriptionId with
  | (.error e, db1) => (.error e, db1)
  | (.ok descId, db1) =>
    let db2 :=
      if dto.updateDescriptionPrice.getD false && descId != 0 && truthyRat dto.pricePerUnit then
        { db1 with descriptions :=
          db1.descriptions.map (fun d => if d.id == descId then { d with pricePerUnit := some dto.pricePerUnit } else d) }
      else db1
    let p := getOrCreateCompany db2 dto.companyName
    let company := p.1
    let db3 := p.2
    let e : ExportRow := ⟨db3.nextExportId, dto.date, company.id, dto.quantity,
                          dto.pricePerUnit, (dto.quantity : Rat) * dto.pricePerUnit, descId⟩
    (.ok e, { db3 with exports := db3.exports ++ [e], nextExportId := db3.nextExportId + 1 })

/-! ## Invariants and structural lemmas -/

/-- Two attendance rows with distinct (date, userId) keys. -/
def AttKeyDistinct (a b : AttendanceRow) : Prop :=
  ¬(a.date = b.date ∧ a.userId = b.userId)

instance (a b : AttendanceRow) : Decidable (AttKeyDistinct a b) := by
  unfold AttKeyDistinct; infer_instance

/-- The invariant of the unique index `Attendance_date_userId_key`: at most one
attendance row per (date, userId). -/
def attendanceKeyUnique (db : DB) : Prop :=
  db.attendances.Pairwise AttKeyDistinct

instance (db : DB) : Decidable (attendanceKeyUnique db) := by
  unfold attendanceKeyUnique; infer_instance

/-- The foreign key `Attendance_userId_fkey`: every attendance row references
an existing user. -/
def attendanceUserFK (db : DB) : Prop :=
  ∀ a ∈ db.attendances, ∃ u ∈ db.users, u.id = a.userId

instance (db : DB) : Decidable (attendanceUserFK db) := by
  unfold attendanceUserFK; infer_instance

/-- The invariant of the unique index `WorkDescription_text_key`: at most one
description row per text. -/
def descriptionTextUnique (db : DB) : Prop :=
  db.descriptions.Pairwise (fun d e => d.text ≠ e.text)

instance (db : DB) : Decidable (descriptionTextUnique db) := by
  unfold descriptionTextUnique; infer_instance

/-- The invariant of the unique index `Attendance_workId_key`: at most one
attendance row per non-null work link. -/
def attendanceWorkIdUnique (db : DB) : Prop :=
  db.attendances.Pairwise (fun x y => x.workId.isSome → x.workId ≠ y.workId)

instance (db : DB) : Decidable (attendanceWorkIdUnique db) := by
  unfold attendanceWorkIdUnique; infer_instance

/-- Two user rows that agree on every stored column except the password. -/
def UserPublicEq (u v : UserRow) : Prop :=
  u.id = v.id ∧ u.email = v.email ∧ u.name = v.name ∧ u.role = v.role ∧
  u.monthlySalary = v.monthlySalary ∧ u.createdAt = v.createdAt

instance (u v : UserRow) : Decidable (UserPublicEq u v) := by
  unfold UserPublicEq; infer_instance

/-! ## Concrete states used by the witnesses

A small database in the spirit of the seed script: one WORKER, one OWNER and
one work description. -/

def user1 : UserRow :=
  ⟨1, "worker1@stitchhub.com", bcryptHash "Worker123", "John Doe", .WORKER, none, 0⟩

def owner1 : UserRow :=
  ⟨2, "admin@stitchhub.com", bcryptHash "Admin123", "Admin User", .OWNER, none, 1⟩

def desc1 : WorkDescriptionRow := ⟨1, "sewing", none⟩

def baseDB : DB :=
  { DB.empty with users := [user1, owner1], descriptions := [desc1],
                  nextUserId := 3, nextDescriptionId := 2 }

/-- A work entry for user 1 on day 0, description id 1, quantity 2 at price 3. -/
def workDto1 : CreateWorkDto := ⟨0, 2, 3, none, some 1, none⟩

def work1 : WorkRow := ⟨1, 0, 2, 3, 6, 1, 1⟩

def att1 : AttendanceRow := ⟨1, 0, .PRESENT, some 1, 1⟩

/-- `baseDB` after `createWork baseDB 1 workDto1`. -/
def dbAfterWork1 : DB :=
  { baseDB with works := [work1], attendances := [att1],
                nextWorkId := 2, nextAttendanceId := 2 }

/-- An attendance row for user 1 on day 0 that carries no work link, as
`createAttendance` produces and as `createWork` leaves it when the row already
existed. -/
def attManual : AttendanceRow := ⟨1, 0, .PRESENT, none, 1⟩

/-- A state holding the work row of user 1 on day 0 next to an attendance row
for the same user and day that is not linked to it. -/
def dbUnlinked : DB :=
  { baseDB with works := [work1], attendances := [attManual],
                nextWorkId := 2, nextAttendanceId := 2 }

/-- `dbUnlinked` after `deleteWork dbUnlinked 1 1 OWNER`. -/
def dbUnlinkedAfterDelete : DB := { dbUnlinked with works := [] }

/-- The linked attendance row of `dbAfterWork1` after the revert of
`deleteWork`. -/
def attReverted : AttendanceRow := ⟨1, 0, .ABSENT, none, 1⟩

/-- `dbAfterWork1` after `deleteWork dbAfterWork1 1 1 OWNER`. -/
def dbAfterDelete1 : DB := { dbAfterWork1 with works := [], attendances := [attReverted] }

/-- A work entry carrying a fresh description text instead of an id. -/
def workDtoText : CreateWorkDto := ⟨0, 2, 3, some "embroidery", none, none⟩

def descNew : WorkDescriptionRow := ⟨2, "embroidery", none⟩

/-- `baseDB` after `createWork baseDB 99 workDtoText` fails: the description
row created before the transaction persists. -/
def dbAfterFailedCreate : DB :=
  { baseDB with descriptions := [desc1, descNew], nextDescriptionId := 3 }

/-- A create-user request reusing the email of user 1. -/
def dupUserDto : CreateUserDto := ⟨"worker1@stitchhub.com", "Duplicate", "Secret12", .WORKER, none⟩

/-- A create-user request with a fresh email. -/
def newUserDto : CreateUserDto := ⟨"worker9@stitchhub.com", "New Worker", "Secret12", .WORKER, none⟩

/-- The row `usersCreate` inserts for `newUserDto` at time 5. -/
def newUserRow : UserRow :=
  ⟨3, "worker9@stitchhub.com", bcryptHash "Secret12", "New Worker", .WORKER, none, 5⟩

/-- `baseDB` after creating `newUserDto`. -/
def dbAfterNewUser : DB :=
  { baseDB with users := [user1, owner1, newUserRow], nextUserId := 4 }

/-- An update moving a user onto the email of the owner. -/
def updEmailDto : UpdateUserDto := ⟨some "admin@stitchhub.com", none, none, none⟩

/-- An update changing only the quantity of a work entry to 5. -/
def updWorkDto : UpdateWorkDto := ⟨some 5, none, none, none⟩

/-- `work1` after `updateWork` with `updWorkDto`: quantity 5 at the stored
price 3, total recomputed to 15. -/
def work1upd : WorkRow := ⟨1, 0, 5, 3, 15, 1, 1⟩

/-- `dbAfterWork1` after updating work 1 with `updWorkDto`. -/
def dbAfterUpd : DB := { dbAfterWork1 with works := [work1upd] }

/-- An export of 4 units at price 5 for company Acme, description `sewing`. -/
def expDto1 : CreateExportDto := ⟨0, "Acme", 4, 5, none, some "sewing", none⟩

def company1 : CompanyRow := ⟨1, "Acme"⟩

/-- The export row created from `expDto1`. -/
def export1 : ExportRow := ⟨1, 0, 1, 4, 5, 20, 1⟩

/-- `baseDB` after `createExport expDto1`. -/
def dbAfterExport : DB :=
  { baseDB with companies := [company1], exports := [export1],
                nextCompanyId := 2, nextExportId := 2 }

/-- The same worker row with a different stored password. -/
def user1alt : UserRow := { user1 with password := bcryptHash "Changed999" }

/-- `baseDB` with the password of user 1 changed and nothing else. -/
def baseDBaltPw : DB := { baseDB with users := [user1alt, owner1] }

/-- `getOrCreateDescription` touches only the description table and its
counter. -/
lemma getOrCreateDescription_eq (db : DB) (t : String) :
    (getOrCreateDescription db t).2 =
      { db with descriptions := (getOrCreateDescription db t).2.descriptions,
                nextDescriptionId := (getOrCreateDescription db t).2.nextDescriptionId } := by
  unfold getOrCreateDescription
  cases h : findDescriptionByText db t <;> rfl

/-- `resolveDescription` touches only the description table and its counter. -/
lemma resolveDescription_eq (db : DB) (oid : Option Nat) (ot : Option String) :
    (resolveDescription db oid ot).2 =
      { db with descriptions := (resolveDescription db oid ot).2.descriptions,
                nextDescriptionId := (resolveDescription db oid ot).2.nextDescriptionId } := by
  unfold resolveDescription
  split
  · cases ot with
    | none => rfl
    | some t =>
      simpa using getOrCreateDescription_eq db t
  · rfl

lemma resolveDescription_attendances (db : DB) (oid : Option Nat) (ot : Option String) :
    (resolveDescription db oid ot).2.attendances = db.attendances := by
  conv_lhs => rw [resolveDescription_eq]

lemma resolveDescription_works (db : DB) (oid : Option Nat) (ot : Option String) :
    (resolveDescription db oid ot).2.works = db.works := by
  conv_lhs => rw [resolveDescription_eq]

lemma resolveDescription_users (db : DB) (oid : Option Nat) (ot : Option String) :
    (resolveDescription db oid ot).2.users = db.users := by
  conv_lhs => rw [resolveDescription_eq]

lemma resolveDescription_nextWorkId (db : DB) (oid : Option Nat) (ot : Option String) :
    (resolveDescription db oid ot).2.nextWorkId = db.nextWorkId := by
  conv_lhs => rw [resolveDescription_eq]

lemma resolveDescription_nextAttendanceId (db : DB) (oid : Option Nat) (ot : Option String) :
    (resolveDescription db oid ot).2.nextAttendanceId = db.nextAttendanceId := by
  conv_lhs => rw [resolveDescription_eq]

lemma resolveDescription_companies (db : DB) (oid : Option Nat) (ot : Option String) :
    (resolveDescription db oid ot).2.companies = db.companies := by
  conv_lhs => rw [resolveDescription_eq]

lemma resolveDescription_exports (db : DB) (oid : Option Nat) (ot : Option String) :
    (resolveDescription db oid ot).2.exports = db.exports := by
  conv_lhs => rw [resolveDescription_eq]

lemma resolveDescription_nextUserId (db : DB) (oid : Option Nat) (ot : Option String) :
    (resolveDescription db oid ot).2.nextUserId = db.nextUserId := by
  conv_lhs => rw [resolveDescription_eq]

/-- Characterization of a successful `work.create`. -/
lemma workCreate_ok {db : DB} {date : Nat} {q : Int} {p ta : Rat} {descId uid : Nat}
    {w : WorkRow} {db' : DB}
    (h : workCreate db date q p ta descId uid = .ok (w, db')) :
    w = ⟨db.nextWorkId, date, q, p, ta, descId, uid⟩ ∧
    db' = { db with works := db.works ++ [w], nextWorkId := db.nextWorkId + 1 } ∧
    (findUserById db uid).isSome ∧ (findDescriptionById db descId).isSome := by
  unfold workCreate at h
  split at h
  · exact absurd h (by simp)
  · split at h
    · exact absurd h (by simp)
    · rename_i h1 h2
      simp only [Except.ok.injEq, Prod.mk.injEq] at h
      obtain ⟨hw, hdb⟩ := h
      subst hw
      refine ⟨rfl, hdb.symm, ?_, ?_⟩
      · simpa [Option.isSome_iff_ne_none, Option.isNone_iff_eq_none] using h1
      · simpa [Option.isSome_iff_ne_none, Option.isNone_iff_eq_none] using h2

/-- Characterization of a successful `attendance.create`. -/
lemma attendanceCreate_ok {db : DB} {date uid : Nat} {workId : Option Nat}
    {s : AttendanceStatus} {a : AttendanceRow} {db' : DB}
    (h : attendanceCreate db date uid workId s = .ok (a, db')) :
    a = ⟨db.nextAttendanceId, date, s, workId, uid⟩ ∧
    db' = { db with attendances := db.attendances ++ [a],
                    nextAttendanceId := db.nextAttendanceId + 1 } ∧
    findAttendanceByDateUser db date uid = none := by
  unfold attendanceCreate at h
  split at h
  · exact absurd h (by simp)
  · split at h
    · exact absurd h (by simp)
    · split at h
      · exact absurd h (by simp)
      · split at h
        · exact absurd h (by simp)
        · simp only [Except.ok.injEq, Prod.mk.injEq] at h
          obtain ⟨ha, hdb⟩ := h
          subst ha
          refine ⟨rfl, hdb.symm, ?_⟩
          rename_i hsome _ _
          simpa using hsome

/-- Characterization of a successful status update on an attendance row. -/
lemma attendanceSetStatus_ok {db : DB} {id : Nat} {s : AttendanceStatus} {db' : DB}
    (h : attendanceSetStatus db id s = .ok db') :
    db' = { db with attendances :=
      db.attendances.map (fun a => if a.id == id then { a with status := s } else a) } := by
  unfold attendanceSetStatus at h
  split at h
  · simpa using h.symm
  · exact absurd h (by simp)

/-- Characterization of a successful revert of an attendance row. -/
lemma attendanceRevert_ok {db : DB} {id : Nat} {db' : DB}
    (h : attendanceRevert db id = .ok db') :
    db' = { db with attendances :=
      db.attendances.map (fun a => if a.id == id then { a with workId := none, status := .ABSENT } else a) } := by
  unfold attendanceRevert at h
  split at h
  · simpa using h.symm
  · exact absurd h (by simp)

/-- Characterization of a successful `work.delete`. -/
lemma workDelete_ok {db : DB} {id : Nat} {db' : DB}
    (h : workDelete db id = .ok db') :
    db' = { db with
      works := db.works.filter (fun w => !(w.id == id)),
      attendances := db.attendances.map
        (fun a => if a.workId == some id then { a with workId := none } else a) } := by
  unfold workDelete at h
  split at h
  · simpa using h.symm
  · exact absurd h (by simp)

/-- On success, the transaction body of `createWork` appends exactly the new
work row and either marks the pre-existing attendance row of the day PRESENT
or appends a fresh PRESENT attendance row linked to the new work. -/
lemma txCreateWorkBody_ok {db : DB} {uid : Nat} {dto : CreateWorkDto} {descId : Nat}
    {ta : Rat} {w : WorkRow} {db2 : DB}
    (h : txCreateWorkBody db uid dto descId ta = .ok (w, db2)) :
    w = ⟨db.nextWorkId, dto.date, dto.quantity, dto.pricePerUnit, ta, descId, uid⟩ ∧
    db2.works = db.works ++ [w] ∧
    (∀ a, findAttendanceByDateUser db dto.date uid = some a →
      db2.attendances = db.attendances.map
        (fun r => if r.id == a.id then { r with status := .PRESENT } else r)) ∧
    (findAttendanceByDateUser db dto.date uid = none →
      db2.attendances = db.attendances ++
        [⟨db.nextAttendanceId, dto.date, .PRESENT, some w.id, uid⟩]) ∧
    db2.users = db.users ∧
    db2.descriptions = db.descriptions ∧
    db2.nextWorkId = db.nextWorkId + 1 ∧
    db2.nextDescriptionId = db.nextDescriptionId ∧
    (findUserById db uid).isSome ∧ (findDescriptionById db descId).isSome := by
  unfold txCreateWorkBody at h
  split at h
  · exact Except.noConfusion h
  rename_i work dbw hw
  obtain ⟨hw1, hdbw, hcku, hckd⟩ := workCreate_ok hw
  have hatt : dbw.attendances = db.attendances := by rw [hdbw]
  have hnext : dbw.nextAttendanceId = db.nextAttendanceId := by rw [hdbw]
  have hfind : findAttendanceByDateUser dbw dto.date uid
      = findAttendanceByDateUser db dto.date uid := by
    unfold findAttendanceByDateUser; rw [hatt]
  split at h
  · rename_i existing hf
    split at h
    · exact Except.noConfusion h
    rename_i dbs hs
    obtain ⟨hww, hdb2⟩ : work = w ∧ dbs = db2 := by simpa using h
    subst hww
    have hset := attendanceSetStatus_ok hs
    refine ⟨hw1, ?_, ?_, ?_, ?_, ?_, ?_, ?_, hcku, hckd⟩
    · rw [← hdb2, hset, hdbw, hw1]
    · intro a ha
      rw [← hfind, hf] at ha
      obtain rfl : existing = a := by injection ha
      rw [← hdb2, hset]
      simp [hatt]
    · intro hnone
      rw [← hfind, hf] at hnone
      exact absurd hnone (by simp)
    · rw [← hdb2, hset, hdbw]
    · rw [← hdb2, hset, hdbw]
    · rw [← hdb2, hset, hdbw]
    · rw [← hdb2, hset, hdbw]
  · rename_i hf
    split at h
    · exact Except.noConfusion h
    rename_i a1 dba hc
    obtain ⟨hww, hdb2⟩ : work = w ∧ dba = db2 := by simpa using h
    subst hww
    obtain ⟨ha1, hdba, -⟩ := attendanceCreate_ok hc
    refine ⟨hw1, ?_, ?_, ?_, ?_, ?_, ?_, ?_, hcku, hckd⟩
    · rw [← hdb2, hdba, hdbw, hw1]
    · intro a ha
      rw [← hfind, hf] at ha
      exact absurd ha (by simp)
    · intro _
      rw [← hdb2, hdba, ha1, hatt, hnext]
    · rw [← hdb2, hdba, hdbw]
    · rw [← hdb2, hdba, hdbw]
    · rw [← hdb2, hdba, hdbw]
    · rw [← hdb2, hdba, hdbw]

/-- On error `createWork` leaves every table except the description table
unchanged: only the pre-transaction description resolution may have written. -/
lemma createWork_err {db : DB} {uid : Nat} {dto : CreateWorkDto} {e : ServiceError}
    {db1 : DB} (h : createWork db uid dto = (.error e, db1)) :
    db1.users = db.users ∧ db1.works = db.works ∧ db1.attendances = db.attendances ∧
    db1.companies = db.companies ∧ db1.exports = db.exports ∧
    db1.nextWorkId = db.nextWorkId ∧ db1.nextAttendanceId = db.nextAttendanceId ∧
    db1.nextUserId = db.nextUserId := by
  unfold createWork at h
  split at h
  · rename_i db1x hres
    injection h with h1 h2
    subst h2
    have hpr : (resolveDescription db dto.descriptionId dto.description).2 = db1x := by
      rw [hres]
    subst hpr
    exact ⟨resolveDescription_users .., resolveDescription_works ..,
      resolveDescription_attendances .., resolveDescription_companies ..,
      resolveDescription_exports .., resolveDescription_nextWorkId ..,
      resolveDescription_nextAttendanceId .., resolveDescription_nextUserId ..⟩
  rename_i descId db1x hres
  split at h
  · split at h
    · injection h with h1 h2
      exact Except.noConfusion h1
    · injection h with h1 h2
      subst h2
      have hpr : (resolveDescription db dto.descriptionId dto.description).2 = db1x := by
        rw [hres]
      subst hpr
      exact ⟨resolveDescription_users .., resolveDescription_works ..,
        resolveDescription_attendances .., resolveDescription_companies ..,
        resolveDescription_exports .., resolveDescription_nextWorkId ..,
        resolveDescription_nextAttendanceId .., resolveDescription_nextUserId ..⟩
  · injection h with h1 h2
    subst h2
    have hpr : (resolveDescription db dto.descriptionId dto.description).2 = db1x := by
      rw [hres]
    subst hpr
    exact ⟨resolveDescription_users .., resolveDescription_works ..,
      resolveDescription_attendances .., resolveDescription_companies ..,
      resolveDescription_exports .., resolveDescription_nextWorkId ..,
      resolveDescription_nextAttendanceId .., resolveDescription_nextUserId ..⟩

/-- On error `deleteWork` leaves the state unchanged. -/
lemma deleteWork_err {db : DB} {id uid : Nat} {role : Role} {e : ServiceError}
    {db1 : DB} (h : deleteWork db id uid role = (.error e, db1)) : db1 = db := by
  unfold deleteWork at h
  split at h
  · injection h with h1 h2; exact h2.symm
  rename_i work hfw
  split at h
  · injection h with h1 h2; exact h2.symm
  split at h
  · injection h with h1 h2
    exact Except.noConfusion h1
  · injection h with h1 h2; exact h2.symm

/-- Characterization of a successful `deleteWork` transaction body. -/
lemma txDeleteWorkBody_ok {db : DB} {work : WorkRow} {att : Option AttendanceRow}
    {w : WorkRow} {db2 : DB} (h : txDeleteWorkBody db work att = .ok (w, db2)) :
    w = work ∧
    db2.works = db.works.filter (fun r => !(r.id == work.id)) ∧
    (att = none →
      db2.attendances = db.attendances.map
        (fun a => if a.workId == some work.id then { a with workId := none } else a)) ∧
    (∀ a0, att = some a0 →
      db2.attendances =
        (db.attendances.map
          (fun r => if r.id == a0.id then { r with workId := none, status := .ABSENT } else r)).map
          (fun a => if a.workId == some work.id then { a with workId := none } else a)) ∧
    db2.users = db.users ∧ db2.descriptions = db.descriptions ∧
    db2.nextWorkId = db.nextWorkId ∧ db2.nextAttendanceId = db.nextAttendanceId := by
  unfold txDeleteWorkBody at h
  split at h
  · exact Except.noConfusion h
  rename_i dbr hr
  split at h
  · exact Except.noConfusion h
  rename_i dbd hd
  obtain ⟨hww, hdb2⟩ : work = w ∧ dbd = db2 := by simpa using h
  have hdel := workDelete_ok hd
  cases att with
  | none =>
    have hdbr : db = dbr := by simpa using hr
    subst hdbr
    subst hww
    refine ⟨rfl, ?_, ?_, ?_, ?_, ?_, ?_, ?_⟩
    · simp [← hdb2, hdel]
    · intro _; simp [← hdb2, hdel]
    · intro a0 ha0; exact Option.noConfusion ha0
    · simp [← hdb2, hdel]
    · simp [← hdb2, hdel]
    · simp [← hdb2, hdel]
    · simp [← hdb2, hdel]
  | some a0 =>
    have hrev := attendanceRevert_ok hr
    subst hww
    refine ⟨rfl, ?_, ?_, ?_, ?_, ?_, ?_, ?_⟩
    · simp [← hdb2, hdel, hrev]
    · intro hn; exact Option.noConfusion hn
    · intro a1 ha1
      obtain rfl : a0 = a1 := by injection ha1
      simp [← hdb2, hdel, hrev]
    · simp [← hdb2, hdel, hrev]
    · simp [← hdb2, hdel, hrev]
    · simp [← hdb2, hdel, hrev]
    · simp [← hdb2, hdel, hrev]

/-- Characterization of a successful `deleteWork`. -/
lemma deleteWork_ok {db : DB} {id uid : Nat} {role : Role} {w : WorkRow} {db2 : DB}
    (h : deleteWork db id uid role = (.ok w, db2)) :
    findWorkById db id = some w ∧ w.id = id ∧
    db2.works = db.works.filter (fun r => !(r.id == id)) ∧
    (findAttendanceByWorkId db id = none →
      db2.attendances = db.attendances.map
        (fun a => if a.workId == some id then { a with workId := none } else a)) ∧
    (∀ a0, findAttendanceByWorkId db id = some a0 →
      db2.attendances =
        (db.attendances.map
          (fun r => if r.id == a0.id then { r with workId := none, status := .ABSENT } else r)).map
          (fun a => if a.workId == some id then { a with workId := none } else a)) ∧
    db2.users = db.users := by
  unfold deleteWork at h
  split at h
  · exact absurd h (by simp)
  rename_i work hfw
  split at h
  · exact absurd h (by simp)
  split at h
  · rename_i wx db2x htx
    obtain ⟨hw, hdb⟩ : wx = w ∧ db2x = db2 := by simpa using h
    subst hdb
    obtain ⟨hww, hworks, hattn, hatts, husers, -, -, -⟩ := txDeleteWorkBody_ok htx
    subst hww
    subst hw
    have hfw' : db.works.find? (fun wr => wr.id == id) = some wx := hfw
    have hid : wx.id = id := by
      have hp := List.find?_some hfw'
      simpa using hp
    rw [hid] at hworks hattn hatts
    exact ⟨hfw, hid, hworks, hattn, hatts, husers⟩
  · exact absurd h (by simp)

/-- Mapping a key-preserving function over the attendance list preserves the
pairwise key distinctness. -/
lemma attKeyDistinct_map {l : List AttendanceRow} {f : AttendanceRow → AttendanceRow}
    (hf : ∀ a, (f a).date = a.date ∧ (f a).userId = a.userId)
    (h : l.Pairwise AttKeyDistinct) : (l.map f).Pairwise AttKeyDistinct := by
  rw [List.pairwise_map]
  refine h.imp ?_
  intro a b hab
  unfold AttKeyDistinct at *
  rw [(hf a).1, (hf a).2, (hf b).1, (hf b).2]
  exact hab

/-- Appending a row whose key is absent preserves pairwise key distinctness. -/
lemma attKeyDistinct_append {l : List AttendanceRow} {a : AttendanceRow}
    (h : l.Pairwise AttKeyDistinct)
    (hfree : ∀ b ∈ l, ¬(b.date = a.date ∧ b.userId = a.userId)) :
    (l ++ [a]).Pairwise AttKeyDistinct := by
  rw [List.pairwise_append]
  refine ⟨h, List.pairwise_singleton _ _, ?_⟩
  intro x hx y hy
  simp only [List.mem_singleton] at hy
  subst hy
  exact hfree x hx

/-- When the unique lookup misses, no row carries the key. -/
lemma findAttendance_none_free {db : DB} {d u : Nat}
    (h : findAttendanceByDateUser db d u = none) :
    ∀ b ∈ db.attendances, ¬(b.date = d ∧ b.userId = u) := by
  intro b hb
  have hx := List.find?_eq_none.mp h b hb
  simpa using hx

/-- A row carrying the key makes the unique lookup hit. -/
lemma findAttendance_mem_isSome {db : DB} {d u : Nat}
    (hx : ∃ b ∈ db.attendances, b.date = d ∧ b.userId = u) :
    (findAttendanceByDateUser db d u).isSome := by
  unfold findAttendanceByDateUser
  rw [List.find?_isSome]
  obtain ⟨b, hb, h1, h2⟩ := hx
  exact ⟨b, hb, by simp [h1, h2]⟩

/-- A user with the id makes the user lookup hit. -/
lemma findUserById_mem_isSome {db : DB} {uid : Nat}
    (hx : ∃ u ∈ db.users, u.id = uid) : (findUserById db uid).isSome := by
  unfold findUserById
  rw [List.find?_isSome]
  obtain ⟨u, hu, h1⟩ := hx
  exact ⟨u, hu, by simp [h1]⟩

lemma find?_append_of_none {α : Type} {l1 l2 : List α} {p : α → Bool}
    (h : l1.find? p = none) : (l1 ++ l2).find? p = l2.find? p := by
  induction l1 with
  | nil => rfl
  | cons a t ih =>
    rw [List.find?_cons] at h
    cases hp : p a with
    | true => rw [hp] at h; exact Option.noConfusion h
    | false =>
      rw [hp] at h
      rw [List.cons_append, List.find?_cons, hp]
      exact ih h

/-- After `getOrCreateDescription`, looking the text up again finds exactly
the returned row. -/
lemma getOrCreateDescription_find (db : DB) (t : String) :
    findDescriptionByText (getOrCreateDescription db t).2 t
      = some (getOrCreateDescription db t).1 := by
  unfold getOrCreateDescription
  cases hf : findDescriptionByText db t with
  | some d => simpa using hf
  | none =>
    simp only []
    unfold findDescriptionByText at hf ⊢
    rw [find?_append_of_none hf]
    simp

/-- A second `getOrCreateDescription` with the same text, run on any state
whose description table agrees with the result of the first, returns the same
row and writes nothing. -/
lemma getOrCreateDescription_stable {db : DB} {t : String} {dbx : DB}
    (hdx : dbx.descriptions = (getOrCreateDescription db t).2.descriptions) :
    getOrCreateDescription dbx t = ((getOrCreateDescription db t).1, dbx) := by
  have hfind : findDescriptionByText dbx t = some (getOrCreateDescription db t).1 := by
    have hsame : findDescriptionByText dbx t
        = findDescriptionByText (getOrCreateDescription db t).2 t := by
      unfold findDescriptionByText
      rw [hdx]
    rw [hsame, getOrCreateDescription_find]
  unfold getOrCreateDescription
  rw [hfind]
  rfl

/-- A second description resolution with the same DTO fields, run on any
state whose description table agrees with the result of the first, yields the
same id and writes nothing. -/
lemma resolveDescription_stable {db : DB} {oid : Option Nat} {ot : Option String}
    {descId : Nat} {db1 : DB}
    (h : resolveDescription db oid ot = (some descId, db1)) :
    ∀ dbx : DB, dbx.descriptions = db1.descriptions →
      resolveDescription dbx oid ot = (some descId, dbx) := by
  intro dbx hdx
  unfold resolveDescription at h
  split at h
  · rename_i hcond
    cases ot with
    | none => simp only [truthyStr, Bool.and_eq_true] at hcond; simp at hcond
    | some t =>
      simp only [Prod.mk.injEq] at h
      obtain ⟨hid, hdb1⟩ := h
      have hstep : resolveDescription dbx oid (some t)
          = (some (getOrCreateDescription dbx t).1.id, (getOrCreateDescription dbx t).2) := by
        unfold resolveDescription
        rw [if_pos hcond]
      have hstab := @getOrCreateDescription_stable db t dbx (by rw [hdx, hdb1])
      rw [hstep, hstab, hid]
  · rename_i hcond
    simp only [Prod.mk.injEq] at h
    have hstep : resolveDescription dbx oid ot = (oid, dbx) := by
      unfold resolveDescription
      rw [if_neg hcond]
    rw [hstep, h.1]

/-- The `createWork` transaction body succeeds whenever the user and the
description exist and the day already has an attendance row for the user. -/
lemma txCreateWorkBody_succeeds (db : DB) (uid : Nat) (dto : CreateWorkDto)
    (descId : Nat) (ta : Rat)
    (hu : (findUserById db uid).isSome)
    (hd : (findDescriptionById db descId).isSome)
    (hatt : (findAttendanceByDateUser db dto.date uid).isSome) :
    ∃ w2 db3, txCreateWorkBody db uid dto descId ta = .ok (w2, db3) := by
  have hu' : (findUserById db uid).isNone = false := by
    cases hx : findUserById db uid
    · rw [hx] at hu; simp at hu
    · rfl
  have hd' : (findDescriptionById db descId).isNone = false := by
    cases hx : findDescriptionById db descId
    · rw [hx] at hd; simp at hd
    · rfl
  obtain ⟨a, ha⟩ := Option.isSome_iff_exists.mp hatt
  have hmem : a ∈ db.attendances := List.mem_of_find?_eq_some ha
  unfold txCreateWorkBody workCreate
  rw [hu', hd']
  simp only [Bool.false_eq_true, if_false]
  have hfind2 : findAttendanceByDateUser
      { db with works := db.works ++ [⟨db.nextWorkId, dto.date, dto.quantity,
          dto.pricePerUnit, ta, descId, uid⟩], nextWorkId := db.nextWorkId + 1 }
      dto.date uid = some a := ha
  rw [hfind2]
  have hany : ((db.attendances).any (fun b => b.id == a.id)) = true :=
    List.any_eq_true.mpr ⟨a, hmem, by simp⟩
  unfold attendanceSetStatus
  simp only [hany, if_true]
  exact ⟨_, _, rfl⟩

/-- Characterization of a successful `createWork` in terms of the initial
state: the new work row, the attendance sync in both branches, and the tables
the operation does not touch. -/
lemma createWork_ok_state {db0 : DB} {uid : Nat} {dto : CreateWorkDto}
    {w : WorkRow} {db2 : DB} (h : createWork db0 uid dto = (.ok w, db2)) :
    (findAttendanceByDateUser db0 dto.date uid = none →
      db2.attendances = db0.attendances ++
        [⟨db0.nextAttendanceId, dto.date, .PRESENT, some w.id, uid⟩]) ∧
    (∀ a, findAttendanceByDateUser db0 dto.date uid = some a →
      db2.attendances = db0.attendances.map
        (fun r => if r.id == a.id then { r with status := .PRESENT } else r)) ∧
    w.totalAmount = (dto.quantity : Rat) * dto.pricePerUnit ∧
    w.quantity = dto.quantity ∧ w.pricePerUnit = dto.pricePerUnit ∧
    w.date = dto.date ∧ w.userId = uid ∧ w.id = db0.nextWorkId ∧
    db2.works = db0.works ++ [w] ∧ db2.users = db0.users ∧
    db2.nextWorkId = db0.nextWorkId + 1 := by
  unfold createWork at h
  split at h
  · exact absurd h (by simp)
  rename_i descId db1 hres
  split at h
  · split at h
    · rename_i wx db2x htx
      obtain ⟨hw, hdb⟩ : wx = w ∧ db2x = db2 := by simpa using h
      subst hw
      subst hdb
      obtain ⟨hw1, hworks, hsome, hnone, husers, hdescs, hnw, hnd⟩ := txCreateWorkBody_ok htx
      have hdb1 : (resolveDescription db0 dto.descriptionId dto.description).2 = db1 := by
        rw [hres]
      have e1 : db1.attendances = db0.attendances := by
        rw [← hdb1, resolveDescription_attendances]
      have e2 : db1.nextAttendanceId = db0.nextAttendanceId := by
        rw [← hdb1, resolveDescription_nextAttendanceId]
      have e3 : findAttendanceByDateUser db1 dto.date uid
          = findAttendanceByDateUser db0 dto.date uid := by
        unfold findAttendanceByDateUser; rw [e1]
      have e4 : db1.works = db0.works := by
        rw [← hdb1, resolveDescription_works]
      have e5 : db1.users = db0.users := by
        rw [← hdb1, resolveDescription_users]
      have e6 : db1.nextWorkId = db0.nextWorkId := by
        rw [← hdb1, resolveDescription_nextWorkId]
      refine ⟨?_, ?_, ?_, ?_, ?_, ?_, ?_, ?_, ?_, ?_, ?_⟩
      · intro hn
        have hx := hnone (by rw [e3]; exact hn)
        rw [e1, e2] at hx
        exact hx
      · intro a ha
        have hx := hsome a (by rw [e3]; exact ha)
        rw [e1] at hx
        exact hx
      · rw [hw1]
      · rw [hw1]
      · rw [hw1]
      · rw [hw1]
      · rw [hw1]
      · rw [hw1, e6]
      · rw [hworks, e4]
      · rw [husers, e5]
      · rw [hnw, e6]
    · exact absurd h (by simp)
  · exact absurd h (by simp)

/-- Claim C1: for every user and date, a successful `createWork` creates the
attendance row for that user and date with status PRESENT (linked to the new
work row) when none exists, and updates the existing row for that key to
status PRESENT when one exists. -/
theorem createWork_attendance_sync (db0 : DB) (uid : Nat) (dto : CreateWorkDto)
    (w : WorkRow) (db2 : DB) (h : createWork db0 uid dto = (.ok w, db2)) :
    (findAttendanceByDateUser db0 dto.date uid = none →
      db2.attendances = db0.attendances ++
        [⟨db0.nextAttendanceId, dto.date, .PRESENT, some w.id, uid⟩]) ∧
    (∀ a, findAttendanceByDateUser db0 dto.date uid = some a →
      db2.attendances = db0.attendances.map
        (fun r => if r.id == a.id then { r with status := .PRESENT } else r)) :=
  ⟨(createWork_ok_state h).1, (createWork_ok_state h).2.1⟩

/-- Witness for C1 at a concrete state: creating a work entry for user 1 on
day 0 in `baseDB` (no attendance yet) appends the PRESENT attendance row. -/
theorem createWork_attendance_sync_witness :
    createWork baseDB 1 workDto1 = (.ok work1, dbAfterWork1) ∧
    (findAttendanceByDateUser baseDB 0 1 = none →
      dbAfterWork1.attendances = baseDB.attendances ++
        [⟨baseDB.nextAttendanceId, 0, .PRESENT, some work1.id, 1⟩]) ∧
    (∀ a, findAttendanceByDateUser baseDB 0 1 = some a →
      dbAfterWork1.attendances = baseDB.attendances.map
        (fun r => if r.id == a.id then { r with status := .PRESENT } else r)) :=
  have hEq : createWork baseDB 1 workDto1 = (.ok work1, dbAfterWork1) := by
    simp only [createWork, resolveDescription, truthyNat, truthyStr, txCreateWorkBody,
      workCreate, attendanceCreate, findAttendanceByDateUser, findUserById,
      findDescriptionById, baseDB, DB.empty, user1, owner1, desc1, workDto1, work1, att1,
      dbAfterWork1]
    norm_num
  ⟨hEq, (createWork_attendance_sync baseDB 1 workDto1 work1 dbAfterWork1 hEq).1,
        (createWork_attendance_sync baseDB 1 workDto1 work1 dbAfterWork1 hEq).2⟩

/-- A hit of the work-link lookup is a member carrying that work link. -/
lemma findAttendanceByWorkId_spec {db : DB} {id : Nat} {a0 : AttendanceRow}
    (h : findAttendanceByWorkId db id = some a0) :
    a0 ∈ db.attendances ∧ a0.workId = some id := by
  have h' : db.attendances.find? (fun a => a.workId == some id) = some a0 := h
  refine ⟨List.mem_of_find?_eq_some h', ?_⟩
  have hp := List.find?_some h'
  simpa using hp

/-- When the work-link lookup misses, no row links to the work. -/
lemma findAttendanceByWorkId_none {db : DB} {id : Nat}
    (h : findAttendanceByWorkId db id = none) :
    ∀ a ∈ db.attendances, ¬(a.workId = some id) := by
  intro a ha
  have hx := List.find?_eq_none.mp h a ha
  simpa using hx

/-- Claim C2 as stated is false on the code: a Work row whose attendance link
is absent — here the attendance row of the same user and day exists but its
`workId` is null — is deleted without that attendance row being reverted: the
row keeps status PRESENT. -/
theorem deleteWork_unlinked_attendance_cex :
    deleteWork dbUnlinked 1 1 Role.OWNER = (.ok work1, dbUnlinkedAfterDelete) ∧
    work1.userId = 1 ∧ work1.date = 0 ∧
    findAttendanceByDateUser dbUnlinkedAfterDelete 0 1 = some attManual ∧
    attManual.workId = none ∧
    attManual.status = .PRESENT ∧
    attManual.status ≠ .ABSENT := by
  exact ⟨by decide, by decide, by decide, by decide, by decide, by decide, by decide⟩

/-- Claim C2 (amended): a successful `deleteWork` reverts exactly the
attendance row linked to the deleted work (`workId = work.id`), setting it to
ABSENT with the link cleared; when no attendance row links to the work, the
attendance table is left unchanged even if a row for the same user and date
exists.  The hypothesis is the invariant of the unique index
`Attendance_workId_key`. -/
theorem deleteWork_attendance_revert (db : DB) (id uid : Nat) (role : Role)
    (w : WorkRow) (db2 : DB)
    (hU : attendanceWorkIdUnique db)
    (h : deleteWork db id uid role = (.ok w, db2)) :
    (∀ a0, findAttendanceByWorkId db id = some a0 →
      db2.attendances = db.attendances.map
        (fun r => if r.id == a0.id then { r with workId := none, status := .ABSENT } else r)) ∧
    (findAttendanceByWorkId db id = none → db2.attendances = db.attendances) ∧
    db2.works = db.works.filter (fun r => !(r.id == id)) := by
  obtain ⟨hfw, hid, hworks, hattn, hatts, husers⟩ := deleteWork_ok h
  have hsym : Symmetric (fun x y : AttendanceRow => x.workId.isSome → x.workId ≠ y.workId) := by
    intro x y hxy hys hyx
    cases hx : x.workId with
    | none => rw [hx] at hyx; rw [hyx] at hys; simp at hys
    | some v =>
      have hne := hxy (by rw [hx]; rfl)
      exact hne hyx.symm
  refine ⟨?_, ?_, hworks⟩
  · intro a0 ha0
    have hmain := hatts a0 ha0
    obtain ⟨hmem, hwid⟩ := findAttendanceByWorkId_spec ha0
    rw [hmain, List.map_map]
    refine List.map_congr_left ?_
    intro r hr
    by_cases hc : r.id = a0.id
    · simp [hc]
    · have hrw : r.workId ≠ some id := by
        intro hrw'
        have hne : a0 ≠ r := by
          intro he
          exact hc (by rw [← he])
        have hR := (List.Pairwise.forall hsym hU) hmem hr hne
        have hcontra := hR (by rw [hwid]; rfl)
        rw [hwid, hrw'] at hcontra
        exact hcontra rfl
      simp [hc, hrw]
  · intro hn
    have hmain := hattn hn
    rw [hmain]
    have hpt : ∀ a ∈ db.attendances,
        (if a.workId == some id then { a with workId := none } else a) = a := by
      intro a ha
      have hfree := findAttendanceByWorkId_none hn a ha
      have : (a.workId == some id) = false := by
        by_contra hcon
        exact hfree (by simpa using Bool.of_not_eq_false hcon)
      simp [this]
    exact (List.map_congr_left hpt).trans (List.map_id _)

/-- Witness for the amended C2 at a concrete state: deleting the work row
created in `dbAfterWork1` reverts its linked attendance row to ABSENT with the
link cleared. -/
theorem deleteWork_attendance_revert_witness :
    attendanceWorkIdUnique dbAfterWork1 ∧
    deleteWork dbAfterWork1 1 1 Role.OWNER = (.ok work1, dbAfterDelete1) ∧
    (∀ a0, findAttendanceByWorkId dbAfterWork1 1 = some a0 →
      dbAfterDelete1.attendances = dbAfterWork1.attendances.map
        (fun r => if r.id == a0.id then { r with workId := none, status := .ABSENT } else r)) ∧
    (findAttendanceByWorkId dbAfterWork1 1 = none →
      dbAfterDelete1.attendances = dbAfterWork1.attendances) ∧
    dbAfterDelete1.works = dbAfterWork1.works.filter (fun r => !(r.id == 1)) :=
  have hU : attendanceWorkIdUnique dbAfterWork1 := by decide
  have hEq : deleteWork dbAfterWork1 1 1 Role.OWNER = (.ok work1, dbAfterDelete1) := by decide
  have hall := deleteWork_attendance_revert dbAfterWork1 1 1 Role.OWNER work1 dbAfterDelete1 hU hEq
  ⟨hU, hEq, hall.1, hall.2.1, hall.2.2⟩

/-- Claim C3: every attendance-writing operation — the sync of `createWork`,
`createAttendance`, `updateAttendanceStatus` and the revert of `deleteWork` —
preserves the invariant of the unique index `Attendance_date_userId_key`
(at most one attendance row per user and date), and `createAttendance` raises
Conflict when a row for the user and date already exists (given the
`Attendance_userId_fkey` invariant, so that the user-existence check passes). -/
theorem attendance_key_unique_preserved (db : DB) (hU : attendanceKeyUnique db) :
    (∀ uid dto, attendanceKeyUnique (createWork db uid dto).2) ∧
    (∀ dto, attendanceKeyUnique (createAttendance db dto).2) ∧
    (∀ d dto, attendanceKeyUnique (updateAttendanceStatus db d dto).2) ∧
    (∀ id uid role, attendanceKeyUnique (deleteWork db id uid role).2) ∧
    (∀ dto a, findAttendanceByDateUser db dto.date dto.userId = some a →
      attendanceUserFK db → (createAttendance db dto).1 = .error .conflict) := by
  refine ⟨?_, ?_, ?_, ?_, ?_⟩
  · intro uid dto
    rcases hcw : createWork db uid dto with ⟨r, dbx⟩
    show attendanceKeyUnique dbx
    cases r with
    | error e =>
      have hx := createWork_err hcw
      unfold attendanceKeyUnique
      rw [hx.2.2.1]
      exact hU
    | ok w =>
      have hx := createWork_ok_state hcw
      cases hf : findAttendanceByDateUser db dto.date uid with
      | none =>
        unfold attendanceKeyUnique
        rw [hx.1 hf]
        refine attKeyDistinct_append hU ?_
        have hfree := findAttendance_none_free hf
        simpa using hfree
      | some a =>
        unfold attendanceKeyUnique
        rw [hx.2.1 a hf]
        exact attKeyDistinct_map
          (fun b => by by_cases hb : (b.id == a.id) = true <;> simp [hb]) hU
  · intro dto
    unfold createAttendance
    split
    · simpa using hU
    split
    · simpa using hU
    rename_i hf
    split
    · rename_i a2 db2 hc
      obtain ⟨ha2, hdb2, -⟩ := attendanceCreate_ok hc
      simp only [attendanceKeyUnique]
      rw [hdb2]
      refine attKeyDistinct_append hU ?_
      have hfree := findAttendance_none_free hf
      subst ha2
      simpa using hfree
    · simpa using hU
  · intro d dto
    unfold updateAttendanceStatus
    split
    · simpa using hU
    split
    · rename_i existing hf
      split
      · rename_i db2 hs
        have hdb2 := attendanceSetStatus_ok hs
        simp only [attendanceKeyUnique]
        rw [hdb2]
        exact attKeyDistinct_map
          (fun b => by by_cases hb : (b.id == existing.id) = true <;> simp [hb]) hU
      · simpa using hU
    · rename_i hf
      split
      · rename_i a2 db2 hc
        obtain ⟨ha2, hdb2, -⟩ := attendanceCreate_ok hc
        simp only [attendanceKeyUnique]
        rw [hdb2]
        refine attKeyDistinct_append hU ?_
        have hfree := findAttendance_none_free hf
        subst ha2
        simpa using hfree
      · simpa using hU
  · intro id uid role
    rcases hdw : deleteWork db id uid role with ⟨r, dbx⟩
    show attendanceKeyUnique dbx
    cases r with
    | error e =>
      have hx := deleteWork_err hdw
      unfold attendanceKeyUnique
      rw [hx]
      exact hU
    | ok w =>
      obtain ⟨-, -, -, hattn, hatts, -⟩ := deleteWork_ok hdw
      cases hf : findAttendanceByWorkId db id with
      | none =>
        unfold attendanceKeyUnique
        rw [hattn hf]
        exact attKeyDistinct_map
          (fun b => by by_cases hb : (b.workId == some id) = true <;> simp [hb]) hU
      | some a0 =>
        unfold attendanceKeyUnique
        rw [hatts a0 hf]
        refine attKeyDistinct_map
          (fun b => by by_cases hb : (b.workId == some id) = true <;> simp [hb]) ?_
        exact attKeyDistinct_map
          (fun b => by by_cases hb : (b.id == a0.id) = true <;> simp [hb]) hU
  · intro dto a hf hFK
    have hmem : a ∈ db.attendances := List.mem_of_find?_eq_some hf
    have hkey : a.date = dto.date ∧ a.userId = dto.userId := by
      have hp := List.find?_some hf
      simpa using hp
    have huser : (findUserById db dto.userId).isSome := by
      refine findUserById_mem_isSome ?_
      obtain ⟨u, hu, hid⟩ := hFK a hmem
      exact ⟨u, hu, by rw [hid, hkey.2]⟩
    unfold createAttendance
    split
    · rename_i hu
      rw [hu] at huser
      simp at huser
    split
    · rfl
    · rename_i hnone
      rw [hf] at hnone
      exact Option.noConfusion hnone

/-- Witness for C3 at a concrete state: the invariant holds of
`dbAfterWork1`, and creating a manual attendance for user 1 on day 0 there is
rejected with Conflict. -/
theorem attendance_key_unique_preserved_witness :
    attendanceKeyUnique dbAfterWork1 ∧
    attendanceKeyUnique (createAttendance dbAfterWork1 ⟨0, 1, .LEAVE⟩).2 ∧
    (findAttendanceByDateUser dbAfterWork1 0 1 = some att1 ∧ attendanceUserFK dbAfterWork1 ∧
      (createAttendance dbAfterWork1 ⟨0, 1, .LEAVE⟩).1 = .error .conflict) :=
  have hU : attendanceKeyUnique dbAfterWork1 := by decide
  have hall := attendance_key_unique_preserved dbAfterWork1 hU
  ⟨hU, hall.2.1 ⟨0, 1, .LEAVE⟩,
    by decide, by decide,
    hall.2.2.2.2 ⟨0, 1, .LEAVE⟩ att1 (by decide) (by decide)⟩

/-- Claim C4: the current schema has no uniqueness constraint on Work
(date, userId): after a successful `createWork` for a user and date, a second
`createWork` for the same user, date and description (with any quantity and
price) succeeds as well and inserts a second work row next to the first. -/
theorem createWork_multiple_per_day (db : DB) (uid : Nat) (dto : CreateWorkDto)
    (q2 : Int) (p2 : Rat) (w : WorkRow) (db2 : DB)
    (h : createWork db uid dto = (.ok w, db2)) :
    ∃ w2 db3,
      createWork db2 uid { dto with quantity := q2, pricePerUnit := p2 } = (.ok w2, db3) ∧
      w.userId = uid ∧ w.date = dto.date ∧ w2.userId = uid ∧ w2.date = dto.date ∧
      db3.works = db2.works ++ [w2] ∧ w ∈ db3.works ∧ w2 ∈ db3.works ∧ w.id ≠ w2.id := by
  unfold createWork at h
  split at h
  · exact absurd h (by simp)
  rename_i descId db1 hres
  split at h
  · rename_i hcond
    split at h
    · rename_i wx db2x htx
      obtain ⟨hww, hdb⟩ : wx = w ∧ db2x = db2 := by simpa using h
      subst hww
      subst hdb
      obtain ⟨hw1, hworks, hsome, hnone, husers, hdescs, hnw, hnd, hcku, hckd⟩ :=
        txCreateWorkBody_ok htx
      have hres2 : resolveDescription db2x dto.descriptionId dto.description
          = (some descId, db2x) := resolveDescription_stable hres db2x hdescs
      have hu2 : (findUserById db2x uid).isSome := by
        have hsame : findUserById db2x uid = findUserById db1 uid := by
          unfold findUserById; rw [husers]
        rw [hsame]; exact hcku
      have hd2 : (findDescriptionById db2x descId).isSome := by
        have hsame : findDescriptionById db2x descId = findDescriptionById db1 descId := by
          unfold findDescriptionById; rw [hdescs]
        rw [hsame]; exact hckd
      have hatt2 : (findAttendanceByDateUser db2x dto.date uid).isSome := by
        cases hf : findAttendanceByDateUser db1 dto.date uid with
        | some a =>
          have hx := hsome a hf
          refine findAttendance_mem_isSome ?_
          have hmem : a ∈ db1.attendances := List.mem_of_find?_eq_some hf
          have hkey : a.date = dto.date ∧ a.userId = uid := by
            have hp := List.find?_some hf
            simpa using hp
          refine ⟨{ a with status := .PRESENT }, ?_, by simpa using hkey.1,
            by simpa using hkey.2⟩
          rw [hx]
          exact List.mem_map.mpr ⟨a, hmem, by simp⟩
        | none =>
          have hx := hnone hf
          refine findAttendance_mem_isSome
            ⟨⟨db1.nextAttendanceId, dto.date, .PRESENT, some wx.id, uid⟩, ?_, rfl, rfl⟩
          rw [hx]
          exact List.mem_append_right _ (List.mem_singleton_self _)
      obtain ⟨w2, db3, htx2⟩ := txCreateWorkBody_succeeds db2x uid
        { dto with quantity := q2, pricePerUnit := p2 } descId ((q2 : Rat) * p2)
        hu2 hd2 hatt2
      obtain ⟨hw2, hworks2, -, -, -, -, hnw2, -, -, -⟩ := txCreateWorkBody_ok htx2
      refine ⟨w2, db3, ?_, ?_, ?_, ?_, ?_, hworks2, ?_, ?_, ?_⟩
      · unfold createWork
        dsimp only
        rw [hres2]
        show (if (descId != 0) = true then
            (match txCreateWorkBody db2x uid { dto with quantity := q2, pricePerUnit := p2 }
                descId ((q2 : Rat) * p2) with
             | Except.ok (wz, dbz) => ((Except.ok wz : Except ServiceError WorkRow), dbz)
             | Except.error e => ((Except.error e : Except ServiceError WorkRow), db2x))
          else ((Except.error ServiceError.badRequest : Except ServiceError WorkRow), db2x))
          = ((Except.ok w2 : Except ServiceError WorkRow), db3)
        rw [if_pos hcond, htx2]
      · rw [hw1]
      · rw [hw1]
      · rw [hw2]
      · rw [hw2]
      · rw [hworks2, hworks]
        exact List.mem_append_left _ (List.mem_append_right _ (List.mem_singleton_self _))
      · rw [hworks2]
        exact List.mem_append_right _ (List.mem_singleton_self _)
      · rw [hw1, hw2]
        show db1.nextWorkId ≠ db2x.nextWorkId
        rw [hnw]
        omega
    · exact absurd h (by simp)
  · exact absurd h (by simp)

/-- Witness for C4 at a concrete state: after the work entry of user 1 on day
0 in `dbAfterWork1`, a second entry for the same user and day (quantity 7 at
price 2) is inserted as well. -/
theorem createWork_multiple_per_day_witness :
    createWork baseDB 1 workDto1 = (.ok work1, dbAfterWork1) ∧
    (∃ w2 db3,
      createWork dbAfterWork1 1 { workDto1 with quantity := 7, pricePerUnit := 2 }
        = (.ok w2, db3) ∧
      work1.userId = 1 ∧ work1.date = workDto1.date ∧ w2.userId = 1 ∧
      w2.date = workDto1.date ∧
      db3.works = dbAfterWork1.works ++ [w2] ∧ work1 ∈ db3.works ∧ w2 ∈ db3.works ∧
      work1.id ≠ w2.id) :=
  have hEq : createWork baseDB 1 workDto1 = (.ok work1, dbAfterWork1) := by
    simp only [createWork, resolveDescription, truthyNat, truthyStr, txCreateWorkBody,
      workCreate, attendanceCreate, findAttendanceByDateUser, findUserById,
      findDescriptionById, baseDB, DB.empty, user1, owner1, desc1, workDto1, work1, att1,
      dbAfterWork1]
    norm_num
  ⟨hEq, createWork_multiple_per_day baseDB 1 workDto1 7 2 work1 dbAfterWork1 hEq⟩

/-- Claim C5 as stated is false on the code: when the transaction inside
`createWork` fails, a WorkDescription row created by the pre-transaction
description resolution persists, so the state is not unchanged on error.
Concretely, creating a work entry with a fresh description text for a
nonexistent user id fails with a foreign key violation on `Work_userId_fkey`,
yet the new description row remains. -/
theorem createWork_not_atomic_cex :
    (createWork baseDB 99 workDtoText).1 = .error .fkViolation ∧
    (createWork baseDB 99 workDtoText).2 = dbAfterFailedCreate ∧
    dbAfterFailedCreate ≠ baseDB ∧
    dbAfterFailedCreate.descriptions = baseDB.descriptions ++ [descNew] :=
  ⟨by decide, by decide, by decide, by decide⟩

/-- Claim C5 (amended): the work insertion plus attendance sync of
`createWork` and the attendance revert plus work deletion of `deleteWork` are
each atomic.  On error `deleteWork` leaves the state unchanged, and
`createWork` leaves every table other than the WorkDescription table
unchanged; a WorkDescription row created by the pre-transaction description
resolution of `createWork` may persist even though the operation failed. -/
theorem work_attendance_tx_atomic (db : DB) :
    (∀ uid dto e db1, createWork db uid dto = (.error e, db1) →
      db1.works = db.works ∧ db1.attendances = db.attendances ∧
      db1.users = db.users ∧ db1.companies = db.companies ∧
      db1.exports = db.exports) ∧
    (∀ id uid role e db1, deleteWork db id uid role = (.error e, db1) → db1 = db) := by
  constructor
  · intro uid dto e db1 h
    have hx := createWork_err h
    exact ⟨hx.2.1, hx.2.2.1, hx.1, hx.2.2.2.1, hx.2.2.2.2.1⟩
  · intro id uid role e db1 h
    exact deleteWork_err h

/-- Witness for the amended C5 at concrete states: a failing `createWork`
keeps all tables other than descriptions, and a failing `deleteWork` keeps the
state. -/
theorem work_attendance_tx_atomic_witness :
    createWork baseDB 99 workDtoText = (.error .fkViolation, dbAfterFailedCreate) ∧
    (dbAfterFailedCreate.works = baseDB.works ∧
     dbAfterFailedCreate.attendances = baseDB.attendances ∧
     dbAfterFailedCreate.users = baseDB.users ∧
     dbAfterFailedCreate.companies = baseDB.companies ∧
     dbAfterFailedCreate.exports = baseDB.exports) ∧
    deleteWork baseDB 77 1 Role.OWNER = (.error .notFound, baseDB) ∧
    baseDB = baseDB :=
  have h1 : createWork baseDB 99 workDtoText = (.error .fkViolation, dbAfterFailedCreate) := by
    decide
  have h2 : deleteWork baseDB 77 1 Role.OWNER = (.error .notFound, baseDB) := by decide
  ⟨h1, (work_attendance_tx_atomic baseDB).1 99 workDtoText .fkViolation dbAfterFailedCreate h1,
   h2, (work_attendance_tx_atomic baseDB).2 77 1 Role.OWNER .notFound baseDB h2⟩

/-- Claim C6: `getOrCreateDescription` deduplicates WorkDescription rows.
When a row with the text exists it is returned and nothing is written; when
none exists exactly one new row with that text is created; the returned row
always carries the text and is stored; a second call with the same text
returns the same row and writes nothing; and the exports-module variant,
called with a text and no description id, returns the id of the very same row
the work-module variant yields, with the same resulting state. -/
theorem getOrCreateDescription_dedup (db : DB) (t : String) :
    (∀ d, findDescriptionByText db t = some d → getOrCreateDescription db t = (d, db)) ∧
    (findDescriptionByText db t = none →
      getOrCreateDescription db t =
        (⟨db.nextDescriptionId, t, none⟩,
         { db with descriptions := db.descriptions ++ [⟨db.nextDescriptionId, t, none⟩],
                   nextDescriptionId := db.nextDescriptionId + 1 })) ∧
    ((getOrCreateDescription db t).1.text = t ∧
      (getOrCreateDescription db t).1 ∈ (getOrCreateDescription db t).2.descriptions) ∧
    (getOrCreateDescription ((getOrCreateDescription db t).2) t
      = ((getOrCreateDescription db t).1, (getOrCreateDescription db t).2)) ∧
    (t ≠ "" → exportsGetOrCreateDescription db (some t) none
      = (.ok (getOrCreateDescription db t).1.id, (getOrCreateDescription db t).2)) := by
  refine ⟨?_, ?_, ?_, ?_, ?_⟩
  · intro d hd
    unfold getOrCreateDescription
    rw [hd]
  · intro hn
    unfold getOrCreateDescription
    rw [hn]
  · cases hf : findDescriptionByText db t with
    | some d =>
      have hmem : d ∈ db.descriptions := List.mem_of_find?_eq_some hf
      have htext : d.text = t := by
        have hp := List.find?_some hf
        simpa using hp
      unfold getOrCreateDescription
      rw [hf]
      exact ⟨htext, hmem⟩
    | none =>
      unfold getOrCreateDescription
      rw [hf]
      exact ⟨rfl, List.mem_append_right _ (List.mem_singleton_self _)⟩
  · exact getOrCreateDescription_stable rfl
  · intro ht
    have htb : (t != "") = true := by simpa using ht
    cases hf : findDescriptionByText db t with
    | some d =>
      simp [exportsGetOrCreateDescription, getOrCreateDescription, truthyNat, truthyStr,
        hf, htb]
    | none =>
      simp [exportsGetOrCreateDescription, getOrCreateDescription, truthyNat, truthyStr,
        hf, htb]

/-- Witness for C6 at a concrete state: the text of `desc1` is found and
returned unchanged, the exports variant returns its id, and a repeated call
is a no-op. -/
theorem getOrCreateDescription_dedup_witness :
    (findDescriptionByText baseDB "sewing" = some desc1 ∧
     getOrCreateDescription baseDB "sewing" = (desc1, baseDB)) ∧
    ("sewing" ≠ "" ∧
     exportsGetOrCreateDescription baseDB (some "sewing") none
       = (.ok (getOrCreateDescription baseDB "sewing").1.id,
          (getOrCreateDescription baseDB "sewing").2)) ∧
    getOrCreateDescription ((getOrCreateDescription baseDB "sewing").2) "sewing"
      = ((getOrCreateDescription baseDB "sewing").1,
         (getOrCreateDescription baseDB "sewing").2) :=
  have hf : findDescriptionByText baseDB "sewing" = some desc1 := by decide
  ⟨⟨hf, (getOrCreateDescription_dedup baseDB "sewing").1 desc1 hf⟩,
   ⟨by decide, (getOrCreateDescription_dedup baseDB "sewing").2.2.2.2 (by decide)⟩,
   (getOrCreateDescription_dedup baseDB "sewing").2.2.2.1⟩

/-- A user with the email makes the email lookup hit. -/
lemma findUserByEmail_mem_isSome {db : DB} {e : String}
    (hx : ∃ u ∈ db.users, u.email = e) : (findUserByEmail db e).isSome := by
  unfold findUserByEmail
  rw [List.find?_isSome]
  obtain ⟨u, hu, h1⟩ := hx
  exact ⟨u, hu, by simp [h1]⟩

/-- Claim C7: user emails are unique.  `usersCreate` raises Conflict exactly
when a user with the email exists, and otherwise appends the new user with the
hashed password; `usersUpdate` raises Conflict when the DTO changes the email
of an existing user to a nonempty email already held by another user. -/
theorem user_email_unique (db : DB) :
    (∀ dto now, (usersCreate db dto now).1 = .error .conflict ↔
       ∃ u ∈ db.users, u.email = dto.email) ∧
    (∀ dto now r db2, usersCreate db dto now = (.ok r, db2) →
       db2.users = db.users ++
         [⟨db.nextUserId, dto.email, bcryptHash dto.password, dto.name, dto.role,
           jsOrNullRat dto.monthlySalary, now⟩]) ∧
    (∀ id dto e user, findUserById db id = some user →
       dto.email = some e → e ≠ "" → e ≠ user.email →
       (∃ v ∈ db.users, v.email = e) →
       (usersUpdate db id dto).1 = .error .conflict) := by
  refine ⟨?_, ?_, ?_⟩
  · intro dto now
    unfold usersCreate
    cases hf : findUserByEmail db dto.email with
    | some u =>
      constructor
      · intro _
        refine ⟨u, List.mem_of_find?_eq_some hf, ?_⟩
        have hp := List.find?_some hf
        simpa using hp
      · intro _
        rfl
    | none =>
      constructor
      · intro hcon
        exact absurd hcon (by simp)
      · rintro ⟨u, hu, he⟩
        have hx := List.find?_eq_none.mp hf u hu
        simp [he] at hx
  · intro dto now r db2 h
    unfold usersCreate at h
    cases hf : findUserByEmail db dto.email with
    | some u => rw [hf] at h; exact absurd h (by simp)
    | none =>
      rw [hf] at h
      simp only [Prod.mk.injEq, Except.ok.injEq] at h
      rw [← h.2]
  · intro id dto e user hfind hde hne1 hne2 hex
    have h3 : (findUserByEmail db e).isSome := findUserByEmail_mem_isSome hex
    have h1 : (e != "") = true := by simpa using hne1
    have h2 : (e != user.email) = true := by simpa using hne2
    unfold usersUpdate
    rw [hfind, hde]
    simp [h1, h2, h3]

/-- Witness for C7 at concrete states: creating a user with the email of user
1 is rejected, a fresh email is appended, and updating user 1 onto the email
of the owner is rejected. -/
theorem user_email_unique_witness :
    ((usersCreate baseDB dupUserDto 5).1 = .error .conflict) ∧
    (usersCreate baseDB newUserDto 5 = (.ok (userToResponse newUserRow), dbAfterNewUser) ∧
     dbAfterNewUser.users = baseDB.users ++
       [⟨baseDB.nextUserId, newUserDto.email, bcryptHash newUserDto.password,
         newUserDto.name, newUserDto.role, jsOrNullRat newUserDto.monthlySalary, 5⟩]) ∧
    (findUserById baseDB 1 = some user1 ∧
     (usersUpdate baseDB 1 updEmailDto).1 = .error .conflict) :=
  have hex : ∃ u ∈ baseDB.users, u.email = dupUserDto.email := ⟨user1, by decide, by decide⟩
  have hcreate : usersCreate baseDB newUserDto 5
      = (.ok (userToResponse newUserRow), dbAfterNewUser) := by decide
  have hfind : findUserById baseDB 1 = some user1 := by decide
  ⟨((user_email_unique baseDB).1 dupUserDto 5).mpr hex,
   ⟨hcreate, (user_email_unique baseDB).2.1 newUserDto 5 (userToResponse newUserRow)
      dbAfterNewUser hcreate⟩,
   ⟨hfind, (user_email_unique baseDB).2.2 1 updEmailDto "admin@stitchhub.com" user1 hfind
      rfl (by decide) (by decide) ⟨owner1, by decide, by decide⟩⟩⟩

lemma workUpdateRow_err {db : DB} {id : Nat} {updated : WorkRow} {e : ServiceError}
    (h : workUpdateRow db id updated = .error e) : e = .notFound := by
  unfold workUpdateRow at h
  split at h
  · exact absurd h (by simp)
  · injection h with h1; exact h1.symm

lemma attendanceRevert_err {db : DB} {id : Nat} {e : ServiceError}
    (h : attendanceRevert db id = .error e) : e = .notFound := by
  unfold attendanceRevert at h
  split at h
  · exact absurd h (by simp)
  · injection h with h1; exact h1.symm

lemma workDelete_err {db : DB} {id : Nat} {e : ServiceError}
    (h : workDelete db id = .error e) : e = .notFound := by
  unfold workDelete at h
  split at h
  · exact absurd h (by simp)
  · injection h with h1; exact h1.symm

/-- The `deleteWork` transaction body can only fail with NotFound. -/
lemma txDeleteWorkBody_err {db : DB} {work : WorkRow} {att : Option AttendanceRow}
    {e : ServiceError} (h : txDeleteWorkBody db work att = .error e) : e = .notFound := by
  unfold txDeleteWorkBody at h
  split at h
  · rename_i ex hx
    injection h with h1
    subst h1
    cases att with
    | some a => exact attendanceRevert_err hx
    | none => exact absurd hx (by simp)
  · rename_i dbr hx
    split at h
    · rename_i ey hy
      injection h with h1
      subst h1
      exact workDelete_err hy
    · exact Except.noConfusion h

/-- `updateWork` returns Forbidden only for WORKER callers. -/
lemma updateWork_forbidden {db : DB} {id : Nat} {dto : UpdateWorkDto} {uid : Nat}
    {role : Role} (h : (updateWork db id dto uid role).1 = .error .forbidden) :
    role = .WORKER := by
  unfold updateWork at h
  split at h
  · simp at h
  rename_i work hfw
  split at h
  · rename_i hcond
    have hrole : (role == Role.WORKER) = true := (Bool.and_eq_true _ _ |>.mp hcond).1
    simpa using hrole
  · exfalso
    rename_i hcond
    split at h
    rename_i rid db1 hres
    split at h
    · dsimp only at h
      split at h
      · simp at h
      · split at h
        · simp at h
        · rename_i e herr
          have he := workUpdateRow_err herr
          simp [he] at h
    · dsimp only at h
      split at h
      · simp at h
      · split at h
        · simp at h
        · rename_i e herr
          have he := workUpdateRow_err herr
          simp [he] at h

/-- Claim C8: WORKER callers are restricted to their own records.
`getWorkById`, `updateWork` and `deleteWork` raise Forbidden for a WORKER
touching the record of another user, and the users findById endpoint raises
Forbidden for a non-OWNER requesting another id; OWNER callers are never
rejected by any of these checks. -/
theorem worker_self_service_only (db : DB) :
    (∀ id uid w, findWorkById db id = some w → w.userId ≠ uid →
       getWorkById db id (some uid) (some .WORKER) = .error .forbidden) ∧
    (∀ id dto uid w, findWorkById db id = some w → w.userId ≠ uid →
       (updateWork db id dto uid .WORKER).1 = .error .forbidden) ∧
    (∀ id uid w, findWorkById db id = some w → w.userId ≠ uid →
       (deleteWork db id uid .WORKER).1 = .error .forbidden) ∧
    (∀ sub id, sub ≠ id →
       usersFindByIdEndpoint db .WORKER sub id = .error .forbidden) ∧
    (∀ id uid, getWorkById db id uid (some .OWNER) ≠ .error .forbidden) ∧
    (∀ id dto uid, (updateWork db id dto uid .OWNER).1 ≠ .error .forbidden) ∧
    (∀ id uid, (deleteWork db id uid .OWNER).1 ≠ .error .forbidden) ∧
    (∀ sub id, usersFindByIdEndpoint db .OWNER sub id ≠ .error .forbidden) := by
  refine ⟨?_, ?_, ?_, ?_, ?_, ?_, ?_, ?_⟩
  · intro id uid w hfw hne
    unfold getWorkById
    split
    · rename_i hn; rw [hfw] at hn; exact Option.noConfusion hn
    rename_i work hs
    rw [hfw] at hs
    injection hs with hs2
    subst hs2
    have hc : (some Role.WORKER == some Role.WORKER && some w.userId != some uid) = true := by
      simp [hne]
    rw [if_pos hc]
  · intro id dto uid w hfw hne
    unfold updateWork
    split
    · rename_i hn; rw [hfw] at hn; exact Option.noConfusion hn
    rename_i work hs
    rw [hfw] at hs
    injection hs with hs2
    subst hs2
    have hc : (Role.WORKER == Role.WORKER && w.userId != uid) = true := by
      simp [hne]
    rw [if_pos hc]
  · intro id uid w hfw hne
    unfold deleteWork
    split
    · rename_i hn; rw [hfw] at hn; exact Option.noConfusion hn
    rename_i work hs
    rw [hfw] at hs
    injection hs with hs2
    subst hs2
    have hc : (Role.WORKER == Role.WORKER && w.userId != uid) = true := by
      simp [hne]
    rw [if_pos hc]
  · intro sub id hne
    unfold usersFindByIdEndpoint
    have hc : (Role.WORKER != Role.OWNER && sub != id) = true := by
      simp [hne]
    rw [if_pos hc]
  · intro id uid
    unfold getWorkById
    split
    · simp
    · rename_i w hfw
      have hc : (some Role.OWNER == some Role.WORKER && some w.userId != uid) = false := rfl
      rw [hc]
      simp
  · intro id dto uid
    intro h
    exact absurd (updateWork_forbidden h) (by decide)
  · intro id uid
    unfold deleteWork
    split
    · simp
    · rename_i w hfw
      have hc : (Role.OWNER == Role.WORKER && w.userId != uid) = false := rfl
      rw [hc]
      simp only [Bool.false_eq_true, if_false]
      split
      · rename_i wz db2z htx
        simp
      · rename_i e htx
        have he := txDeleteWorkBody_err htx
        subst he
        simp
  · intro sub id
    unfold usersFindByIdEndpoint
    have hc : (Role.OWNER != Role.OWNER && sub != id) = false := rfl
    rw [hc]
    simp only [Bool.false_eq_true, if_false]
    unfold usersFindById
    split
    · simp
    · simp

/-- Witness for C8 at concrete states: the owner (id 2, role WORKER in the
scenario) cannot read, update or delete the work of user 1, a WORKER cannot
read the profile of another user, and the OWNER role passes all checks. -/
theorem worker_self_service_only_witness :
    (findWorkById dbAfterWork1 1 = some work1 ∧ work1.userId ≠ 2 ∧
      getWorkById dbAfterWork1 1 (some 2) (some .WORKER) = .error .forbidden) ∧
    ((updateWork dbAfterWork1 1 ⟨none, none, none, none⟩ 2 .WORKER).1 = .error .forbidden) ∧
    ((deleteWork dbAfterWork1 1 2 .WORKER).1 = .error .forbidden) ∧
    (usersFindByIdEndpoint dbAfterWork1 .WORKER 1 2 = .error .forbidden) ∧
    (getWorkById dbAfterWork1 1 (some 2) (some .OWNER) ≠ .error .forbidden) ∧
    ((deleteWork dbAfterWork1 1 2 .OWNER).1 ≠ .error .forbidden) ∧
    (usersFindByIdEndpoint dbAfterWork1 .OWNER 1 2 ≠ .error .forbidden) :=
  have hfw : findWorkById dbAfterWork1 1 = some work1 := by decide
  have hne : work1.userId ≠ 2 := by decide
  have hall := worker_self_service_only dbAfterWork1
  ⟨⟨hfw, hne, hall.1 1 2 work1 hfw hne⟩,
   hall.2.1 1 ⟨none, none, none, none⟩ 2 work1 hfw hne,
   hall.2.2.1 1 2 work1 hfw hne,
   hall.2.2.2.1 1 2 (by decide),
   hall.2.2.2.2.1 1 (some 2),
   hall.2.2.2.2.2.2.1 1 2,
   hall.2.2.2.2.2.2.2 1 2⟩

/-- Characterization of a successful `work.update`. -/
lemma workUpdateRow_ok {db : DB} {id : Nat} {updated : WorkRow} {db2 : DB}
    (h : workUpdateRow db id updated = .ok db2) :
    db2 = { db with works := db.works.map (fun r => if r.id == id then updated else r) } := by
  unfold workUpdateRow at h
  split at h
  · simpa using h.symm
  · exact absurd h (by simp)

/-- Claim C9: every Work row written by `createWork` or `updateWork` and
every Export row written by `createExport` satisfies
totalAmount = quantity * pricePerUnit, with `updateWork` recomputing the
product from the DTO fields merged over the stored row. -/
theorem totalAmount_product (db : DB) :
    (∀ uid dto w db2, createWork db uid dto = (.ok w, db2) →
       w ∈ db2.works ∧ w.totalAmount = (w.quantity : Rat) * w.pricePerUnit ∧
       w.quantity = dto.quantity ∧ w.pricePerUnit = dto.pricePerUnit) ∧
    (∀ id dto uid role w db2 w0, updateWork db id dto uid role = (.ok w, db2) →
       findWorkById db id = some w0 →
       w ∈ db2.works ∧ w.totalAmount = (w.quantity : Rat) * w.pricePerUnit ∧
       w.quantity = dto.quantity.getD w0.quantity ∧
       w.pricePerUnit = dto.pricePerUnit.getD w0.pricePerUnit) ∧
    (∀ dto ex db2, createExport db dto = (.ok ex, db2) →
       ex ∈ db2.exports ∧ ex.totalAmount = (ex.quantity : Rat) * ex.pricePerUnit ∧
       ex.quantity = dto.quantity ∧ ex.pricePerUnit = dto.pricePerUnit) := by
  refine ⟨?_, ?_, ?_⟩
  · intro uid dto w db2 h
    obtain ⟨-, -, hta, hq, hp, -, -, -, hworks, -, -⟩ := createWork_ok_state h
    refine ⟨?_, ?_, hq, hp⟩
    · rw [hworks]
      exact List.mem_append_right _ (List.mem_singleton_self _)
    · rw [hta, hq, hp]
  · intro id dto uid role w db2 w0 h hf0
    unfold updateWork at h
    split at h
    · rename_i hn; rw [hf0] at hn; exact Option.noConfusion hn
    rename_i work hs
    rw [hf0] at hs
    injection hs with hs2
    subst hs2
    split at h
    · exact absurd h (by simp)
    split at h
    rename_i rid db1 hres
    dsimp only at h
    have hmemw0 : w0 ∈ db.works := List.mem_of_find?_eq_some hf0
    have hidw0 : (w0.id == id) = true := by
      have hp := List.find?_some hf0
      simpa using hp
    have hdb1w : db1.works = db.works := by
      have hdb1 : (resolveDescription db dto.descriptionId dto.description).2 = db1 := by
        rw [hres]
      rw [← hdb1, resolveDescription_works]
    split at h
    all_goals
      split at h
      · exact absurd h (by simp)
      · split at h
        · rename_i db2y hupd
          obtain ⟨hw, hdb⟩ := by
            simpa only [Prod.mk.injEq, Except.ok.injEq] using h
          have hdb2w : db2.works
              = db1.works.map (fun r => if r.id == id then w else r) := by
            rw [← hdb, workUpdateRow_ok hupd]
            simp only [hw]
          refine ⟨?_, ?_, ?_, ?_⟩
          · rw [hdb2w, hdb1w]
            exact List.mem_map.mpr ⟨w0, hmemw0, by rw [if_pos hidw0]⟩
          · rw [← hw]
          · rw [← hw]
          · rw [← hw]
        · exact absurd h (by simp)
  · intro dto ex db2 h
    unfold createExport at h
    split at h
    · exact absurd h (by simp)
    rename_i descId db1 hdesc
    dsimp only at h
    obtain ⟨hex, hdb⟩ := by
      simpa only [Prod.mk.injEq, Except.ok.injEq] using h
    refine ⟨?_, ?_, ?_, ?_⟩
    · rw [← hdb, ← hex]
      exact List.mem_append_right _ (List.mem_singleton_self _)
    · rw [← hex]
    · rw [← hex]
    · rw [← hex]

/-- Witness for C9 at concrete states: the created work (2 units at 3), the
updated work (quantity changed to 5 at the stored price 3, total 15) and the
created export (4 units at 5, total 20) all satisfy the product relation. -/
theorem totalAmount_product_witness :
    createWork baseDB 1 workDto1 = (.ok work1, dbAfterWork1) ∧
    (work1 ∈ dbAfterWork1.works ∧ work1.totalAmount = (work1.quantity : Rat) * work1.pricePerUnit) ∧
    updateWork dbAfterWork1 1 updWorkDto 1 .WORKER = (.ok work1upd, dbAfterUpd) ∧
    (work1upd ∈ dbAfterUpd.works ∧
     work1upd.totalAmount = (work1upd.quantity : Rat) * work1upd.pricePerUnit ∧
     work1upd.quantity = updWorkDto.quantity.getD work1.quantity) ∧
    createExport baseDB expDto1 = (.ok export1, dbAfterExport) ∧
    (export1 ∈ dbAfterExport.exports ∧
     export1.totalAmount = (export1.quantity : Rat) * export1.pricePerUnit) :=
  have h1 : createWork baseDB 1 workDto1 = (.ok work1, dbAfterWork1) := by
    simp only [createWork, resolveDescription, truthyNat, truthyStr, txCreateWorkBody,
      workCreate, attendanceCreate, findAttendanceByDateUser, findUserById,
      findDescriptionById, baseDB, DB.empty, user1, owner1, desc1, workDto1, work1, att1,
      dbAfterWork1]
    norm_num
  have h2 : updateWork dbAfterWork1 1 updWorkDto 1 .WORKER = (.ok work1upd, dbAfterUpd) := by
    simp only [updateWork, resolveDescription, truthyNat, truthyStr, workUpdateRow,
      findWorkById, findDescriptionById, baseDB, DB.empty, user1, owner1, desc1, work1,
      att1, dbAfterWork1, updWorkDto, work1upd, dbAfterUpd]
    norm_num
  have h3 : createExport baseDB expDto1 = (.ok export1, dbAfterExport) := by
    simp [createExport, exportsGetOrCreateDescription, getOrCreateCompany,
      findCompanyByName, findDescriptionByText, findDescriptionById, truthyNat, truthyStr,
      truthyRat, baseDB, DB.empty, user1, owner1, desc1, expDto1, company1, export1,
      dbAfterExport]
    norm_num
  have hfw : findWorkById dbAfterWork1 1 = some work1 := by decide
  have p1 := (totalAmount_product baseDB).1 1 workDto1 work1 dbAfterWork1 h1
  have p2 := (totalAmount_product dbAfterWork1).2.1 1 updWorkDto 1 .WORKER work1upd
    dbAfterUpd work1 h2 hfw
  have p3 := (totalAmount_product baseDB).2.2 expDto1 export1 dbAfterExport h3
  ⟨h1, ⟨p1.1, p1.2.1⟩, h2, ⟨p2.1, p2.2.1, p2.2.2.1⟩, h3, ⟨p3.1, p3.2.1⟩⟩

/-- The response projection is determined by the public columns. -/
lemma userToResponse_congr {u v : UserRow} (h : UserPublicEq u v) :
    userToResponse u = userToResponse v := by
  obtain ⟨h1, h2, h3, h4, h5, h6⟩ := h
  unfold userToResponse
  rw [h1, h2, h3, h4, h6]

/-- Publicly equal user tables project to the same response lists. -/
lemma usersPublicEq_map {l1 l2 : List UserRow}
    (h : List.Forall₂ UserPublicEq l1 l2) :
    l1.map userToResponse = l2.map userToResponse := by
  induction h with
  | nil => rfl
  | cons hrel htail ih =>
    simp only [List.map_cons, ih, userToResponse_congr hrel]

/-- Publicly equal user tables give the same projected lookup result. -/
lemma usersPublicEq_find {l1 l2 : List UserRow} {id : Nat}
    (h : List.Forall₂ UserPublicEq l1 l2) :
    Option.map userToResponse (l1.find? (fun u => u.id == id))
      = Option.map userToResponse (l2.find? (fun u => u.id == id)) := by
  induction h with
  | nil => rfl
  | cons hrel htail ih =>
    rename_i a b t1 t2
    rw [List.find?_cons, List.find?_cons, hrel.1]
    cases hc : (b.id == id) with
    | true => simp [hc, userToResponse_congr hrel]
    | false => simpa [hc] using ih

/-- Claim C10: no user-read operation returns the password hash.  The
`UserResponseDto` projection carries no password and is insensitive to it,
and `findAll` and `findById` return identical results on any two database
states whose user tables differ only in stored passwords. -/
theorem user_read_no_password (db1 db2 : DB)
    (h : List.Forall₂ UserPublicEq db1.users db2.users) :
    usersFindAll db1 = usersFindAll db2 ∧
    (∀ id, usersFindById db1 id = usersFindById db2 id) ∧
    (∀ u p, userToResponse { u with password := p } = userToResponse u) := by
  refine ⟨?_, ?_, ?_⟩
  · unfold usersFindAll
    rw [usersPublicEq_map h]
  · intro id
    have hf := @usersPublicEq_find db1.users db2.users id h
    unfold usersFindById findUserById
    cases h1 : db1.users.find? (fun u => u.id == id) with
    | none =>
      cases h2 : db2.users.find? (fun u => u.id == id) with
      | none => rfl
      | some v => rw [h1, h2] at hf; exact absurd hf (by simp)
    | some u =>
      cases h2 : db2.users.find? (fun u => u.id == id) with
      | none => rw [h1, h2] at hf; exact absurd hf (by simp)
      | some v =>
        rw [h1, h2] at hf
        have hx : userToResponse u = userToResponse v := by simpa using hf
        show (Except.ok (userToResponse u) : Except ServiceError UserResponse)
          = Except.ok (userToResponse v)
        rw [hx]
  · intro u p
    rfl

/-- Witness for C10 at concrete states: `baseDB` and `baseDBaltPw` differ
exactly in the stored password of user 1, and every user read coincides. -/
theorem user_read_no_password_witness :
    List.Forall₂ UserPublicEq baseDB.users baseDBaltPw.users ∧
    usersFindAll baseDB = usersFindAll baseDBaltPw ∧
    (∀ id, usersFindById baseDB id = usersFindById baseDBaltPw id) ∧
    user1.password ≠ user1alt.password :=
  have hrel : List.Forall₂ UserPublicEq baseDB.users baseDBaltPw.users :=
    List.Forall₂.cons (by decide) (List.Forall₂.cons (by decide) List.Forall₂.nil)
  ⟨hrel, (user_read_no_password baseDB baseDBaltPw hrel).1,
   (user_read_no_password baseDB baseDBaltPw hrel).2.1, by decide⟩

end StitchHub
